import Mathlib

/-!
Verification of the MotionCam MCRAW-to-DNG core against its sources.

The definitions below are shallow embeddings of functions from
`src/src/Utils.cpp` (C++ render pipeline), `src/lib/mcraw-decoder.ts`
(container parser / decoder) and `src/lib/client-mcraw-processor.ts`
(processing orchestrator).  Machine integers are modelled as `Nat` with
explicit `% 2^w` where the source truncates; IEEE floats/doubles are
modelled as exact rationals (`Rat`) or reals where transcendental
functions occur.  JavaScript `Uint8Array` reads are modelled as
`List.getD _ _ 0 % 256`.
-/

namespace Motioncam

/-! ### C1 - bit packer (src/src/Utils.cpp) and decoder unpack
    (src/lib/mcraw-decoder.ts `unpackBits`) -/

/-- One four-sample group of `encodeTo10Bit` (Utils.cpp lines 253-268).
Each store is truncated to `uint8_t`, hence the `% 256`. -/
def encode10Group (p0 p1 p2 p3 : ℕ) : List ℕ :=
  [ (p0 >>> 2) % 256,
    (((p0 &&& 0x03) <<< 6) ||| (p1 >>> 4)) % 256,
    (((p1 &&& 0x0F) <<< 4) ||| (p2 >>> 6)) % 256,
    (((p2 &&& 0x3F) <<< 2) ||| (p3 >>> 8)) % 256,
    (p3 &&& 0xFF) % 256 ]

/-- `encodeTo10Bit` walks the 16-bit sample buffer four samples at a time
(the C++ iterates `x += 4` over each row; callers guarantee `width % 4 = 0`).
An incomplete final group reads past the end of the sample buffer in the
C++ (undefined behaviour); the missing samples are modelled as 0. -/
def encodeTo10Bit : List ℕ → List ℕ
  | [] => []
  | [p0] => encode10Group p0 0 0 0
  | [p0, p1] => encode10Group p0 p1 0 0
  | [p0, p1, p2] => encode10Group p0 p1 p2 0
  | p0 :: p1 :: p2 :: p3 :: rest => encode10Group p0 p1 p2 p3 ++ encodeTo10Bit rest

/-- One two-sample group of `encodeTo12Bit` (Utils.cpp lines 287-298). -/
def encode12Group (p0 p1 : ℕ) : List ℕ :=
  [ (p0 >>> 4) % 256,
    (((p0 &&& 0x0F) <<< 4) ||| (p1 >>> 8)) % 256,
    (p1 &&& 0xFF) % 256 ]

/-- `encodeTo12Bit`, two samples per three output bytes; an incomplete final
group reads past the buffer in the C++ (UB), modelled as sample 0. -/
def encodeTo12Bit : List ℕ → List ℕ
  | [] => []
  | [p0] => encode12Group p0 0
  | p0 :: p1 :: rest => encode12Group p0 p1 ++ encodeTo12Bit rest

/-- A 16-bit sample buffer as raw little-endian bytes.  For
`encodeBits = 16` the pipeline leaves the buffer unchanged
(Utils.cpp lines 1150-1152), so this is the packed form for 16 bits. -/
def toLE16Bytes : List ℕ → List ℕ
  | [] => []
  | p :: rest => p % 256 :: (p / 256) % 256 :: toLE16Bytes rest

/-- Loop of `McrawDecoder.unpackBits` for `bits === 10`
(mcraw-decoder.ts lines 905-910).  `result` is a `Uint16Array`, so stores
are truncated `% 65536`; reads from the `Uint8Array` are `% 256`.
The fuel argument only bounds the recursion; every loop iteration
advances `i` by 4, so fuel `pixelCount + 1` is never exhausted while the
loop condition holds. -/
def unpack10Loop (packed : List ℕ) (pixelCount : ℕ) :
    ℕ → ℕ → ℕ → List ℕ → List ℕ
  | 0, _, _, result => result
  | fuel + 1, i, j, result =>
    if i + 3 < pixelCount ∧ j + 4 < packed.length then
      let b0 := packed.getD j 0 % 256
      let b1 := packed.getD (j + 1) 0 % 256
      let b2 := packed.getD (j + 2) 0 % 256
      let b3 := packed.getD (j + 3) 0 % 256
      let b4 := packed.getD (j + 4) 0 % 256
      unpack10Loop packed pixelCount fuel (i + 4) (j + 5)
        ((((result.set i ((((b0 <<< 2) ||| (b1 >>> 6)) <<< 6) % 65536)).set
            (i + 1) (((((b1 &&& 0x3f) <<< 4) ||| (b2 >>> 4)) <<< 6) % 65536)).set
            (i + 2) (((((b2 &&& 0x0f) <<< 6) ||| (b3 >>> 2)) <<< 6) % 65536)).set
            (i + 3) (((((b3 &&& 0x03) <<< 8) ||| b4) <<< 6) % 65536))
    else result

/-- Loop of `unpackBits` for `bits === 12` (mcraw-decoder.ts lines 912-915). -/
def unpack12Loop (packed : List ℕ) (pixelCount : ℕ) :
    ℕ → ℕ → ℕ → List ℕ → List ℕ
  | 0, _, _, result => result
  | fuel + 1, i, j, result =>
    if i + 1 < pixelCount ∧ j + 2 < packed.length then
      let b0 := packed.getD j 0 % 256
      let b1 := packed.getD (j + 1) 0 % 256
      let b2 := packed.getD (j + 2) 0 % 256
      unpack12Loop packed pixelCount fuel (i + 2) (j + 3)
        ((result.set i ((((b0 <<< 4) ||| (b1 >>> 4)) <<< 4) % 65536)).set
          (i + 1) (((((b1 &&& 0x0f) <<< 8) ||| b2) <<< 4) % 65536))
    else result

/-- Fallback branch of `unpackBits` (mcraw-decoder.ts lines 917-920):
little-endian 16-bit reads for `i < min(pixelCount, packed.length / 2)`.
In JS the last read throws on an odd-length buffer; the (never produced)
byte past the end is modelled as 0. -/
def unpackFallback (packed : List ℕ) (pixelCount : ℕ) : List ℕ :=
  (List.range pixelCount).map fun i =>
    if 2 * i < packed.length then
      packed.getD (2 * i) 0 % 256 + 256 * (packed.getD (2 * i + 1) 0 % 256)
    else 0

/-- `McrawDecoder.unpackBits(packed, pixelCount, bits)`
(mcraw-decoder.ts lines 900-924).  The result is a zero-initialised
`Uint16Array(pixelCount)`. -/
def unpackBits (packed : List ℕ) (pixelCount bits : ℕ) : List ℕ :=
  if bits = 10 then
    unpack10Loop packed pixelCount (pixelCount + 1) 0 0 (List.replicate pixelCount 0)
  else if bits = 12 then
    unpack12Loop packed pixelCount (pixelCount + 1) 0 0 (List.replicate pixelCount 0)
  else unpackFallback packed pixelCount

/-! ### Shared enums (src/include/Types.h) -/

/-- `enum class LogTransformMode` (Types.h lines 162-169). -/
inductive LogTransformMode
  | Disabled
  | KeepInput
  | ReduceBy2Bit
  | ReduceBy4Bit
  | ReduceBy6Bit
  | ReduceBy8Bit
deriving DecidableEq

/-- `enum class QuadBayerMode` (Types.h lines 156-160). -/
inductive QuadBayerMode
  | Remosaic
  | WrongCFAMetadata
  | CorrectQBCFAMetadata
deriving DecidableEq

/-! ### C2 - linearization table and level tags
    (src/src/Utils.cpp `generateDng`, lines 1319-1361) -/

/-- Condition under which `generateDng` emits a LinearizationTable
(Utils.cpp line 1321):
`logTransform != Disabled && !(logTransform == KeepInput && !applyShadingMap)`. -/
def linearizationTablePresent (lt : LogTransformMode) (applyShadingMap : Bool) : Bool :=
  decide (lt ≠ .Disabled ∧ ¬(lt = .KeepInput ∧ applyShadingMap = false))

/-- Whether the per-pixel loop of `preprocessData` applies the log curve to
the stored samples (Utils.cpp lines 831-851: the `debugShadingMap` branch
wins, then `logTransform == Disabled` selects the linear branch, and
every other mode takes the logarithmic branch). -/
def pixelPathUsesLogCurve (debugShadingMap : Bool) (lt : LogTransformMode) : Bool :=
  !debugShadingMap && decide (lt ≠ .Disabled)

/-- `std::clamp(v, lo, hi)` on ordered values (callers keep `lo ≤ hi`). -/
def clampR (v lo hi : ℝ) : ℝ := max lo (min v hi)

/-- One entry of the linearization table (Utils.cpp lines 1327-1349).
Index 0 and index `tableSize - 1 = L` are forced exactly; interior
entries invert the log curve and are truncated (not rounded) by the
`static_cast<unsigned short>`.  The float arithmetic is modelled
over the reals. -/
noncomputable def linearizationEntry (L i : ℕ) : ℕ :=
  if i = 0 then 0
  else if i = L then 65535
  else (⌊clampR (((2 : ℝ) ^ (((i : ℝ) / (L : ℝ)) * Real.logb 2 61) - 1) / 60) 0 1
          * 65535⌋).toNat

/-- The linearization table: `dstWhiteLevel + 1` entries
(Utils.cpp lines 1324-1349, `L` is `dstWhiteLevel`). -/
noncomputable def linearizationTable (L : ℕ) : List ℕ :=
  (List.range (L + 1)).map (linearizationEntry L)

/-- The claim's formula for a table entry, with `round` in place of the
source's truncating cast (stated from the specification text for
comparison with `linearizationEntry`). -/
noncomputable def linearizationEntrySpec (L i : ℕ) : ℕ :=
  (round ((((2 : ℝ) ^ (((i : ℝ) / (L : ℝ)) * Real.logb 2 61) - 1) / 60) * 65535)).toNat

/-- BlackLevel / WhiteLevel tags written by `generateDng`
(Utils.cpp lines 1350-1357): with a linearization table the DNG gets
`BlackLevel = [0,0,0,0]` and `WhiteLevel = 65534`, otherwise the
renderer's levels. -/
def dngLevelTags (present : Bool) (dstBlack : List ℕ) (dstWhite : ℕ) : List ℕ × ℕ :=
  if present then ([0, 0, 0, 0], 65534) else (dstBlack, dstWhite)

/-! ### C3 - destination levels and sample clamping
    (src/src/Utils.cpp `preprocessData`) -/

/-- Bit-counting loop inside `bitsNeeded` (Utils.cpp lines 82-89). -/
def bitCount : ℕ → ℕ
  | 0 => 0
  | n + 1 => bitCount ((n + 1) / 2) + 1

/-- `bitsNeeded` (Utils.cpp lines 78-90): 1 for value 0, else the number
of binary digits. -/
def bitsNeeded (v : ℕ) : ℕ := if v = 0 then 1 else bitCount v

/-- `static_cast<unsigned short>` of a nonnegative float value: truncation
toward zero.  Out-of-range conversion is undefined behaviour in C++ and is
modelled as a wrap, negative input as 0. -/
def toUShort (q : ℚ) : ℕ := (max 0 ⌊q⌋).toNat % 65536

/-- `scale = (scale > 1 ? (scale / 2) * 2 : 1)` (Utils.cpp line 594). -/
def normalizeScale (scale : ℕ) : ℕ := if 1 < scale then (scale / 2) * 2 else 1

/-- The source white level after Quad-Bayer 2x2-binning compensation
(Utils.cpp lines 682-687): `cfaSize = interpretAsQuadBayer ? 2 : 1` and
`srcWhiteLevel *= cfaSize * cfaSize` when `cfaSize > 1 && scale == 2`. -/
def effectiveSrcWhite (srcWhite : ℚ) (interpretAsQuadBayer : Bool) (draftScale : ℕ) : ℚ :=
  let scale := normalizeScale draftScale
  let cfaSize : ℕ := if interpretAsQuadBayer then 2 else 1
  if 1 < cfaSize ∧ scale = 2 then srcWhite * ((cfaSize * cfaSize : ℕ) : ℚ) else srcWhite

/-- Destination white level computed by `preprocessData`
(Utils.cpp lines 696-775).  With the shading map applied, the
`normaliseShadingMap` and `debugShadingMap` branches leave
`dstWhiteLevel` unchanged; the log-transform modes (and the
shading-without-log case) recompute it as `2^useBits - 1` with
`useBits = min(16, bitsNeeded(dstWhiteLevel) + k)`.  Without shading,
only the four ReduceBy modes recompute it. -/
def computeDstWhiteLevel (srcWhite : ℚ) (interpretAsQuadBayer : Bool) (draftScale : ℕ)
    (applyShadingMap normaliseShadingMap debugShadingMap : Bool)
    (lt : LogTransformMode) : ℚ :=
  let srcW := effectiveSrcWhite srcWhite interpretAsQuadBayer draftScale
  let b : ℤ := bitsNeeded (toUShort srcW)
  if applyShadingMap then
    if normaliseShadingMap then srcW
    else if debugShadingMap then srcW
    else match lt with
      | .Disabled => (2 : ℚ) ^ (min 16 (b + 2)) - 1
      | .KeepInput => (2 : ℚ) ^ (min 16 (b + 0)) - 1
      | .ReduceBy2Bit => (2 : ℚ) ^ (min 16 (b - 2)) - 1
      | .ReduceBy4Bit => (2 : ℚ) ^ (min 16 (b - 4)) - 1
      | .ReduceBy6Bit => (2 : ℚ) ^ (min 16 (b - 6)) - 1
      | .ReduceBy8Bit => (2 : ℚ) ^ (min 16 (b - 8)) - 1
  else match lt with
    | .ReduceBy2Bit => (2 : ℚ) ^ (min 16 (b - 2)) - 1
    | .ReduceBy4Bit => (2 : ℚ) ^ (min 16 (b - 4)) - 1
    | .ReduceBy6Bit => (2 : ℚ) ^ (min 16 (b - 6)) - 1
    | .ReduceBy8Bit => (2 : ℚ) ^ (min 16 (b - 8)) - 1
    | _ => srcW

/-- `std::clamp(v, lo, hi)` as written in the C++ standard:
`v < lo ? lo : hi < v ? hi : v` (meaningful when `lo ≤ hi`). -/
def clampQ (v lo hi : ℚ) : ℚ := if v < lo then lo else if hi < v then hi else v

/-- `std::round`: rounding half away from zero. -/
def roundAway (q : ℚ) : ℚ := if 0 ≤ q then (⌊q + 1 / 2⌋ : ℤ) else (-⌊-q + 1 / 2⌋ : ℤ)

/-- The store of one rendered sample (Utils.cpp lines 853-854 and 1022-1023):
`std::clamp(std::round(p + dstBlack), 0.f, dstWhiteLevel)`, where `p` is
whatever value the linear, logarithmic or debug branch produced. -/
def clampStore (p dstBlack dstWhite : ℚ) : ℚ :=
  clampQ (roundAway (p + dstBlack)) 0 dstWhite

/-! ### C4 / C5 - frame indexing strategies
    (src/lib/mcraw-decoder.ts `scanFrameBlocks` and helpers) -/

/-- Per-frame metadata parsed from a preceding type-3 JSON block
(mcraw-decoder.ts `FrameInfo.perFrameMetadata`). -/
structure PerFrameMeta where
  iso : Option ℚ
  exposureTime : Option ℚ
  timestamp : Option ℚ
deriving DecidableEq

/-- A frame record as built by the detection strategies
(mcraw-decoder.ts `FrameInfo`). -/
structure FrameRec where
  offset : ℕ
  size : ℕ
  blockType : ℕ
  compressed : Bool
  timestamp : ℚ
  meta : PerFrameMeta
deriving DecidableEq

/-- `DataView.getUint32(offset, true)`: little-endian 32-bit read. -/
def getU32LE (bytes : List ℕ) (off : ℕ) : ℕ :=
  bytes.getD off 0 % 256 + 256 * (bytes.getD (off + 1) 0 % 256) +
    65536 * (bytes.getD (off + 2) 0 % 256) + 16777216 * (bytes.getD (off + 3) 0 % 256)

/-- `McrawDecoder.isZstdCompressed` (mcraw-decoder.ts lines 526-534):
true when the four bytes at `offset` are the zstd magic `28 B5 2F FD`. -/
def isZstdMagicAt (bytes : List ℕ) (offset : ℕ) : Bool :=
  if offset + 4 > bytes.length then false
  else decide (bytes.getD offset 0 = 0x28 ∧ bytes.getD (offset + 1) 0 = 0xb5 ∧
    bytes.getD (offset + 2) 0 = 0x2f ∧ bytes.getD (offset + 3) 0 = 0xfd)

/-- Loop of `McrawDecoder.scanTypePrefixedBlocks`
(mcraw-decoder.ts lines 280-380).  State: remaining fuel, byte offset,
consecutive-invalid counter, buffered type-3 metadata, accumulated frame
records (so `acc.length` is the source's `frameCount`).  `parse` abstracts
`TextDecoder` + `JSON.parse` on the audio payload at a given offset/size
(`none` when parsing throws; on `none` the buffered metadata is kept).
Each iteration advances `offset` by at least 1, so fuel
`bytes.length + 1` is never exhausted while the loop condition holds. -/
def scan1Loop (bytes : List ℕ) (expected12BitSize : ℕ)
    (parse : ℕ → ℕ → Option PerFrameMeta) :
    ℕ → ℕ → ℕ → Option PerFrameMeta → List FrameRec → List FrameRec
  | 0, _, _, _, acc => acc
  | fuel + 1, offset, consec, cur, acc =>
    if offset < bytes.length - 8 ∧ consec < 5 then
      let blockType := getU32LE bytes offset
      let blockSize := getU32LE bytes (offset + 4)
      if blockType = 2 ∧ 1024 ≤ blockSize ∧ blockSize ≤ 52428800 then
        let fm := cur.getD ⟨none, none, none⟩
        let ts : ℚ := match fm.timestamp with
          | some t => if t = 0 then (acc.length : ℚ) * (1000000 / 24) else t
          | none => (acc.length : ℚ) * (1000000 / 24)
        scan1Loop bytes expected12BitSize parse fuel (offset + 8 + blockSize) 0 none
          (acc ++ [{ offset := offset + 8, size := blockSize, blockType := 2,
                     compressed := decide ((blockSize : ℚ) < (expected12BitSize : ℚ) * (9 / 10)),
                     timestamp := ts, meta := fm }])
      else if blockType = 3 ∧ 100 ≤ blockSize ∧ blockSize ≤ 10485760 then
        match parse (offset + 8) blockSize with
        | some m =>
          scan1Loop bytes expected12BitSize parse fuel (offset + 8 + blockSize) 0 (some m) acc
        | none =>
          scan1Loop bytes expected12BitSize parse fuel (offset + 8 + blockSize) 0 cur acc
      else scan1Loop bytes expected12BitSize parse fuel (offset + 1) (consec + 1) cur acc
    else acc

/-- Strategy 1: type-prefixed blocks.  `expected12BitSize` is the
source's `Math.floor(width * height * 12 / 8)` from the container
metadata; the per-frame `compressed` flag is
`blockSize < expected12BitSize * 0.9` (mcraw-decoder.ts line 333). -/
def scanTypePrefixedBlocks (bytes : List ℕ) (startOffset expected12BitSize : ℕ)
    (parse : ℕ → ℕ → Option PerFrameMeta) : List FrameRec :=
  scan1Loop bytes expected12BitSize parse (bytes.length + 1) startOffset 0 none []

/-- Strategy 2: size-prefixed zstd blocks
(mcraw-decoder.ts `scanSizePrefixedZstd`, lines 382-406).
Records are always marked compressed, with timestamp
`frameInfos.length * (1000 / 24)`. -/
def scan2Loop (bytes : List ℕ) : ℕ → ℕ → List FrameRec → List FrameRec
  | 0, _, acc => acc
  | fuel + 1, offset, acc =>
    if offset < bytes.length - 8 then
      let size := getU32LE bytes offset
      if 1024 ≤ size ∧ size ≤ 52428800 ∧ offset + 4 + size ≤ bytes.length ∧
          isZstdMagicAt bytes (offset + 4) = true then
        scan2Loop bytes fuel (offset + 4 + size)
          (acc ++ [{ offset := offset + 4, size := size, blockType := 2, compressed := true,
                     timestamp := (acc.length : ℚ) * (1000 / 24), meta := ⟨none, none, none⟩ }])
      else acc
    else acc

/-- Strategy 2 entry point. -/
def scanSizePrefixedZstd (bytes : List ℕ) (startOffset : ℕ) : List FrameRec :=
  scan2Loop bytes (bytes.length + 1) startOffset []

/-- Offset-collection loop of `scanZstdMagic`
(mcraw-decoder.ts lines 411-422): every zstd magic position, skipping
100 extra bytes after a hit (the `for` increment adds one more). -/
def zstdOffsetsLoop (bytes : List ℕ) : ℕ → ℕ → List ℕ → List ℕ
  | 0, _, acc => acc
  | fuel + 1, i, acc =>
    if i < bytes.length - 4 then
      if bytes.getD i 0 = 0x28 ∧ bytes.getD (i + 1) 0 = 0xb5 ∧
          bytes.getD (i + 2) 0 = 0x2f ∧ bytes.getD (i + 3) 0 = 0xfd then
        zstdOffsetsLoop bytes fuel (i + 101) (acc ++ [i])
      else zstdOffsetsLoop bytes fuel (i + 1) acc
    else acc

/-- Strategy 3: magic scan (mcraw-decoder.ts lines 408-444).
Successive magic offsets bound a frame; sizes outside `[100, 100 MiB]`
are dropped; every record is marked compressed. -/
def scanZstdMagic (bytes : List ℕ) (startOffset : ℕ) : List FrameRec :=
  let offsets := zstdOffsetsLoop bytes (bytes.length + 1) startOffset []
  (List.range offsets.length).filterMap fun i =>
    let offset := offsets.getD i 0
    let next := if i < offsets.length - 1 then offsets.getD (i + 1) 0 else bytes.length
    let size := next - offset
    if 100 ≤ size ∧ size ≤ 104857600 then
      some { offset := offset, size := size, blockType := 2, compressed := true,
             timestamp := (i : ℚ) * (1000 / 24), meta := ⟨none, none, none⟩ }
    else none

/-- Strategy 4: fixed-size partition by `numSegments`
(mcraw-decoder.ts `applyFixedFrameSize`, lines 446-476).  The
`compressed` flag is `isZstdCompressed(offset)`. -/
def applyFixedFrameSize (bytes : List ℕ) (startOffset numSegments : ℕ) : List FrameRec :=
  if numSegments = 0 then []
  else
    let frameSize := (bytes.length - startOffset) / numSegments
    if frameSize < 1024 then []
    else (List.range numSegments).filterMap fun i =>
      let offset := startOffset + i * frameSize
      if offset + frameSize ≤ bytes.length then
        some { offset := offset, size := frameSize, blockType := 2,
               compressed := isZstdMagicAt bytes offset,
               timestamp := (i : ℚ) * (1000 / 24), meta := ⟨none, none, none⟩ }
      else none

/-- Strategy 5: raw Bayer partition
(mcraw-decoder.ts `scanRawBayerBlocks`, lines 478-524).  `width` and
`height` are the resolved metadata values; every record is marked
uncompressed. -/
def scanRawBayerBlocks (bytes : List ℕ) (startOffset width height : ℕ) : List FrameRec :=
  if width = 0 ∨ height = 0 then []
  else
    let expectedFrameSize := width * height * 2
    let possibleFrames := (bytes.length - startOffset) / expectedFrameSize
    if possibleFrames = 0 then []
    else (List.range possibleFrames).map fun i =>
      { offset := startOffset + i * expectedFrameSize, size := expectedFrameSize,
        blockType := 2, compressed := false,
        timestamp := (i : ℚ) * (1000 / 24), meta := ⟨none, none, none⟩ }

/-- The timestamp rule actually implemented by strategy 1
(mcraw-decoder.ts line 341): a truthy per-frame JSON timestamp is used
unchanged, otherwise `frameCount * (1000000 / 24)` - that is, `k / 24`
seconds expressed in microseconds, not in seconds. -/
def timestampRule (m : PerFrameMeta) (k : ℕ) : ℚ :=
  match m.timestamp with
  | some t => if t = 0 then (k : ℚ) * (1000000 / 24) else t
  | none => (k : ℚ) * (1000000 / 24)

/-! ### C6 - color-only shading reduction
    (src/src/Utils.cpp `colorOnlyShadingMap`, lines 151-205).
    A plane is modelled as a function from the row-major cell index
    `j * w + i` to the gain value. -/

/-- Per-plane running minimum with initial value `10.0f`
(Utils.cpp lines 166-181), scanning all `h * w` cells. -/
def planeMin (plane : ℕ → ℚ) (w h : ℕ) : ℚ :=
  ((List.range (h * w)).map plane).foldl (fun acc v => if v < acc then v else acc) 10

/-- Per-plane running maximum with initial value `0.0f`. -/
def planeMax (plane : ℕ → ℚ) (w h : ℕ) : ℚ :=
  ((List.range (h * w)).map plane).foldl (fun acc v => if acc < v then v else acc) 0

/-- Global maximum over the four planes (Utils.cpp lines 155-159). -/
def mapMax (m : Fin 4 → ℕ → ℚ) (w h : ℕ) : ℚ :=
  ((List.finRange 4).map fun ch => planeMax (m ch) w h).foldl
    (fun acc v => if acc < v then v else acc) 0

/-- The four per-plane minima after the CFA green-channel adjustment
(Utils.cpp lines 183-189).  For RGGB/BGGR the source executes
`minValue01 = std::min(minValue01, minValue10); minValue01 = minValue10;`
so the second assignment overwrites the first and both green minima end
up equal to the plane-2 minimum; symmetrically `minValue00 = minValue11`
for GRBG/GBRG.  (The values are dead code because `aggressive` is the
literal `false` at line 164, but the claim describes them.) -/
def colorOnlyMinima (m : Fin 4 → ℕ → ℚ) (w h : ℕ) (cfa : List ℕ) : ℚ × ℚ × ℚ × ℚ :=
  let m00 := planeMin (m 0) w h
  let m01 := planeMin (m 1) w h
  let m10 := planeMin (m 2) w h
  let m11 := planeMin (m 3) w h
  if cfa = [0, 1, 1, 2] ∨ cfa = [2, 1, 1, 0] then (m00, m10, m10, m11)
  else if cfa = [1, 0, 2, 1] ∨ cfa = [1, 2, 0, 1] then (m11, m01, m10, m11)
  else (m00, m01, m10, m11)

/-- `localMinValue` at one cell (Utils.cpp line 199). -/
def localMin4 (m : Fin 4 → ℕ → ℚ) (idx : ℕ) : ℚ :=
  min (m 0 idx) (min (m 1 idx) (min (m 2 idx) (m 3 idx)))

/-- `colorOnlyShadingMap` (Utils.cpp lines 151-205).  The function
returns unchanged when the global maximum is zero (or the map is empty);
otherwise every in-range cell of every channel is divided by the minimum
of the four channel gains at that cell.  The `aggressive` per-plane
division is dead code (`aggressive = false`) and therefore absent. -/
def colorOnlyShadingMap (m : Fin 4 → ℕ → ℚ) (w h : ℕ) (_cfa : List ℕ) :
    Fin 4 → ℕ → ℚ :=
  if mapMax m w h = 0 then m
  else fun ch idx => if idx < w * h then m ch idx / localMin4 m idx else m ch idx

/-! ### C7 - CFA pattern tags (src/src/Utils.cpp `generateDng`,
    lines 1089-1099 and 1193-1211) -/

/-- `RENDER_OPT_INTERPRET_AS_QUAD_BAYER = 1 << 10` (Types.h line 78). -/
def RENDER_OPT_INTERPRET_AS_QUAD_BAYER : ℕ := 1024

/-- `interpretAsQuadBayer` as computed in `generateDng` (line 1095):
`metadata.needRemosaic || settings.options & RENDER_OPT_INTERPRET_AS_QUAD_BAYER`. -/
def interpretAsQuadBayer (needRemosaic : Bool) (options : ℕ) : Bool :=
  needRemosaic || decide (options &&& RENDER_OPT_INTERPRET_AS_QUAD_BAYER ≠ 0)

/-- The 16-entry Quad-Bayer CFA pattern chosen from the 2x2 pattern
(Utils.cpp lines 1195-1206). -/
def quadCfaPattern (cfa : List ℕ) : List ℕ :=
  if cfa = [0, 1, 1, 2] then [0, 0, 1, 1, 0, 0, 1, 1, 1, 1, 2, 2, 1, 1, 2, 2]
  else if cfa = [2, 1, 1, 0] then [2, 2, 1, 1, 2, 2, 1, 1, 1, 1, 0, 0, 1, 1, 0, 0]
  else if cfa = [1, 0, 2, 1] then [1, 1, 0, 0, 1, 1, 0, 0, 2, 2, 1, 1, 2, 2, 1, 1]
  else [1, 1, 2, 2, 1, 1, 2, 2, 0, 0, 1, 1, 0, 0, 1, 1]

/-- CFARepeatPatternDim and CFAPattern written by `generateDng`
(lines 1193-1211): 4x4 with the 16-entry pattern exactly when
`interpretAsQuadBayer && draftScale == 1 && quadBayerOption == CorrectQBCFAMetadata`,
else 2x2 with the 4-entry pattern. -/
def cfaTagInfo (needRemosaic : Bool) (options draftScale : ℕ) (qb : QuadBayerMode)
    (cfa : List ℕ) : (ℕ × ℕ) × List ℕ :=
  if interpretAsQuadBayer needRemosaic options = true ∧ draftScale = 1 ∧
      qb = .CorrectQBCFAMetadata then
    ((4, 4), quadCfaPattern cfa)
  else ((2, 2), cfa)

/-! ### C8 - FPS inference
    (src/lib/mcraw-decoder.ts `calculateFpsFromTimestamps`, lines 539-593) -/

/-- Positive consecutive timestamp deltas (lines 544-550). -/
def calcDeltas (ts : List ℚ) : List ℚ :=
  (List.zipWith (fun a b => a - b) ts.tail ts).filter fun d => 0 < d

/-- The deltas sorted ascending (`deltas.sort((a, b) => a - b)`). -/
def sortedDeltas (ts : List ℚ) : List ℚ :=
  (calcDeltas ts).insertionSort (· ≤ ·)

/-- `deltas[Math.floor(deltas.length / 2)]` after sorting (line 558). -/
def medianDelta (ts : List ℚ) : ℚ :=
  (sortedDeltas ts).getD ((sortedDeltas ts).length / 2) 0

/-- Raw fps after the unit ladder (lines 562-579): thresholds 1e7, 1e4
and 10 select nanoseconds, microseconds, milliseconds or seconds. -/
def rawFps (ts : List ℚ) : ℚ :=
  let md := medianDelta ts
  if 10000000 < md then 1000000000 / md
  else if 10000 < md then 1000000 / md
  else if 10 < md then 1000 / md
  else 1 / md

/-- `commonRates` (line 582). -/
def commonRates : List ℚ := [18, 24, 25, 2997 / 100, 30, 48, 50, 5994 / 100, 60, 120]

/-- `Math.round`: round half toward positive infinity. -/
def jsRound (q : ℚ) : ℤ := ⌊q + 1 / 2⌋

/-- `calculateFpsFromTimestamps` on the vector of frame timestamps
(lines 539-593): default 24 with fewer than two frames or no positive
delta; otherwise the raw fps is snapped to the first member of
`commonRates` within 5 percent relative distance, else rounded (kept
only in `(0, 1000)`). -/
def calculateFpsFromTimestamps (ts : List ℚ) : ℚ :=
  if ts.length < 2 then 24
  else if calcDeltas ts = [] then 24
  else
    let raw := rawFps ts
    match commonRates.find? (fun r => decide (|raw - r| / r < 1 / 20)) with
    | some r => r
    | none =>
      let res := jsRound raw
      if 0 < res ∧ res < 1000 then (res : ℚ) else 24

/-! ### C9 - per-frame failure containment
    (src/lib/client-mcraw-processor.ts `processClientSideMcraw`,
    lines 85-153) -/

/-- What one iteration of the processing loop observes for a frame:
a decoded frame, a frame whose `bayerData` is missing or empty
(lines 95-99, counted failed without any threshold check), or a thrown
error (lines 123-132, counted failed and checked against the threshold). -/
inductive FrameOutcome
  | success
  | emptyData
  | errorThrown
deriving DecidableEq

/-- The processing loop (lines 88-137) followed by the zero-success check
(line 135).  State: remaining outcomes, successful and failed counts.
The `0.8` threshold compare `failedFrames > framesToProcess * 0.8` is
exact on integer counts, so it is modelled with the rational `8 / 10`.
`Except.error ()` is the thrown error aborting the job;
`Except.ok (s, f)` is the returned `ProcessingResult` counts. -/
def processFramesLoop (total : ℕ) : List FrameOutcome → ℕ → ℕ → Except Unit (ℕ × ℕ)
  | [], s, f => if s = 0 then .error () else .ok (s, f)
  | o :: rest, s, f =>
    match o with
    | .success => processFramesLoop total rest (s + 1) f
    | .emptyData => processFramesLoop total rest s (f + 1)
    | .errorThrown =>
      if ((f + 1 : ℕ) : ℚ) > (total : ℚ) * (8 / 10) then .error ()
      else processFramesLoop total rest s (f + 1)

/-- `processClientSideMcraw` restricted to its failure-containment
behaviour, with `framesToProcess` equal to the number of outcomes. -/
def processClientFrames (outcomes : List FrameOutcome) : Except Unit (ℕ × ℕ) :=
  processFramesLoop outcomes.length outcomes 0 0

/-- Number of frames the loop counts as failed in a prefix
(both the empty-data path and the exception path increment
`failedFrames`). -/
def failCount (l : List FrameOutcome) : ℕ :=
  (l.filter fun o => o ≠ .success).length

/-- Number of successful frames in a list. -/
def successCount (l : List FrameOutcome) : ℕ :=
  (l.filter fun o => o = .success).length

/-! ### C10 - Quad-Bayer 2x2 binning
    (src/src/Utils.cpp `preprocessData`, lines 807-819) -/

/-- The exact sum of the four sub-samples feeding one binned sample,
reading the 16-bit source buffer (each read is already `< 2^16`).
`i : Fin 4` selects the Bayer position in the 2x2 output block. -/
def trueQuadSum (src : ℕ → ℕ) (W srcX srcY : ℕ) : Fin 4 → ℕ
  | 0 => src (srcY * W + srcX) % 65536 + src (srcY * W + srcX + 1) % 65536 +
         src ((srcY + 1) * W + srcX) % 65536 + src ((srcY + 1) * W + srcX + 1) % 65536
  | 1 => src (srcY * W + srcX + 2) % 65536 + src (srcY * W + srcX + 3) % 65536 +
         src ((srcY + 1) * W + srcX + 2) % 65536 + src ((srcY + 1) * W + srcX + 3) % 65536
  | 2 => src ((srcY + 2) * W + srcX) % 65536 + src ((srcY + 2) * W + srcX + 1) % 65536 +
         src ((srcY + 3) * W + srcX) % 65536 + src ((srcY + 3) * W + srcX + 1) % 65536
  | 3 => src ((srcY + 2) * W + srcX + 2) % 65536 + src ((srcY + 2) * W + srcX + 3) % 65536 +
         src ((srcY + 3) * W + srcX + 2) % 65536 + src ((srcY + 3) * W + srcX + 3) % 65536

/-- The binned sample actually stored in the `cfaSize == 2 && scale == 2`
branch (Utils.cpp lines 809-813): the sum of four `uint16_t` values is
assigned back into a `uint16_t`, i.e. reduced `% 2^16`. -/
def fetchQuadBinned (src : ℕ → ℕ) (W srcX srcY : ℕ) (i : Fin 4) : ℕ :=
  trueQuadSum src W srcX srcY i % 65536

/-! ### Concrete counterexample containers for the frame-scan claims -/

/-- A container holding one type-2 block of size 1024 whose payload
begins with the zstd magic; the metadata geometry gives
`expected12BitSize = floor(27 * 28 * 12 / 8) = 1134`. -/
def cexBytesA : List ℕ :=
  [2, 0, 0, 0, 0, 4, 0, 0, 40, 181, 47, 253] ++ List.replicate 1020 0

/-- The single frame record strategy 1 produces for `cexBytesA`. -/
def cexRecA : FrameRec :=
  { offset := 0 + 8, size := 1024, blockType := 2,
    compressed := decide (((1024 : ℕ) : ℚ) < ((1134 : ℕ) : ℚ) * (9 / 10)),
    timestamp := timestampRule (Option.getD none ⟨none, none, none⟩)
      (List.length ([] : List FrameRec)),
    meta := Option.getD none ⟨none, none, none⟩ }

/-- A container holding two type-2 blocks of 1024 zero bytes each. -/
def cexBlock : List ℕ := [2, 0, 0, 0, 0, 4, 0, 0] ++ List.replicate 1024 0

def cexBytesB : List ℕ := cexBlock ++ cexBlock

/-! ### Arithmetic bridging lemmas for the bit-packer proofs -/

theorem and_mask3 (x : ℕ) : x &&& 3 = x % 4 := by
  have h := Nat.and_pow_two_sub_one_eq_mod x 2
  norm_num at h
  exact h

theorem and_mask15 (x : ℕ) : x &&& 15 = x % 16 := by
  have h := Nat.and_pow_two_sub_one_eq_mod x 4
  norm_num at h
  exact h

theorem and_mask63 (x : ℕ) : x &&& 63 = x % 64 := by
  have h := Nat.and_pow_two_sub_one_eq_mod x 6
  norm_num at h
  exact h

theorem and_mask255 (x : ℕ) : x &&& 255 = x % 256 := by
  have h := Nat.and_pow_two_sub_one_eq_mod x 8
  norm_num at h
  exact h

theorem shiftl_two (x : ℕ) : x <<< 2 = x * 4 := by
  rw [Nat.shiftLeft_eq]

theorem shiftl_four (x : ℕ) : x <<< 4 = x * 16 := by
  rw [Nat.shiftLeft_eq]

theorem shiftl_six (x : ℕ) : x <<< 6 = x * 64 := by
  rw [Nat.shiftLeft_eq]

theorem shiftl_eight (x : ℕ) : x <<< 8 = x * 256 := by
  rw [Nat.shiftLeft_eq]

theorem shiftr_two (x : ℕ) : x >>> 2 = x / 4 := by
  rw [Nat.shiftRight_eq_div_pow]

theorem shiftr_four (x : ℕ) : x >>> 4 = x / 16 := by
  rw [Nat.shiftRight_eq_div_pow]

theorem shiftr_six (x : ℕ) : x >>> 6 = x / 64 := by
  rw [Nat.shiftRight_eq_div_pow]

theorem shiftr_eight (x : ℕ) : x >>> 8 = x / 256 := by
  rw [Nat.shiftRight_eq_div_pow]

theorem lor_mul_four {b : ℕ} (hb : b < 4) (a : ℕ) : a * 4 ||| b = a * 4 + b := by
  have h2 : b < 2 ^ 2 := by omega
  have hm : a * 4 = 2 ^ 2 * a := by ring
  rw [hm]
  exact (Nat.mul_add_lt_is_or h2 a).symm

theorem lor_mul_sixteen {b : ℕ} (hb : b < 16) (a : ℕ) : a * 16 ||| b = a * 16 + b := by
  have h2 : b < 2 ^ 4 := by omega
  have hm : a * 16 = 2 ^ 4 * a := by ring
  rw [hm]
  exact (Nat.mul_add_lt_is_or h2 a).symm

theorem lor_mul_sixtyfour {b : ℕ} (hb : b < 64) (a : ℕ) : a * 64 ||| b = a * 64 + b := by
  have h2 : b < 2 ^ 6 := by omega
  have hm : a * 64 = 2 ^ 6 * a := by ring
  rw [hm]
  exact (Nat.mul_add_lt_is_or h2 a).symm

theorem lor_mul_twofiftysix {b : ℕ} (hb : b < 256) (a : ℕ) :
    a * 256 ||| b = a * 256 + b := by
  have h2 : b < 2 ^ 8 := by omega
  have hm : a * 256 = 2 ^ 8 * a := by ring
  rw [hm]
  exact (Nat.mul_add_lt_is_or h2 a).symm

/-- C1 counterexample: the claimed round trip
`unpack(pack([v]), 1, bits) == [v]` fails at `v = 1`, `bits = 12`:
for a single pixel the 12-bit branch of `unpackBits` never executes its
loop body (the guard `i < pixelCount - 1` is false at `i = 0`), so the
zero-initialised output `[0]` is returned, not `[1]`. -/
theorem unpack_pack_single_pixel_cex :
    unpackBits (encodeTo12Bit [1]) 1 12 = [0] ∧ ([0] : List ℕ) ≠ [1] := by
  constructor
  · decide
  · decide

/-- C1 (amended): the decoder scales unpacked samples to the 16-bit
range.  For full groups, `unpackBits` inverts `encodeTo10Bit` and
`encodeTo12Bit` only up to the factor `2^(16 - bits)`, and the
little-endian fallback inverts the identity 16-bit packing exactly:
for samples below `2^bits`,
`unpack(pack10 [p0,p1,p2,p3], 4, 10) = [64*p0, ..., 64*p3]`,
`unpack(pack12 [q0,q1], 2, 12) = [16*q0, 16*q1]`, and
`unpack(le16 [v], 1, 16) = [v]`. -/
theorem bitpack_roundtrip_scaled (p0 p1 p2 p3 q0 q1 v : ℕ)
    (hp0 : p0 < 1024) (hp1 : p1 < 1024) (hp2 : p2 < 1024) (hp3 : p3 < 1024)
    (hq0 : q0 < 4096) (hq1 : q1 < 4096) (hv : v < 65536) :
    unpackBits (encodeTo10Bit [p0, p1, p2, p3]) 4 10 =
      [p0 * 64, p1 * 64, p2 * 64, p3 * 64] ∧
    unpackBits (encodeTo12Bit [q0, q1]) 2 12 = [q0 * 16, q1 * 16] ∧
    unpackBits (toLE16Bytes [v]) 1 16 = [v] := by
  refine ⟨?_, ?_, ?_⟩
  · have hgrp : encodeTo10Bit [p0, p1, p2, p3] = encode10Group p0 p1 p2 p3 := by
      simp [encodeTo10Bit]
    rw [hgrp]
    have e0 : (p0 >>> 2) % 256 = p0 / 4 := by rw [shiftr_two]; omega
    have e1 : (((p0 &&& 3) <<< 6) ||| (p1 >>> 4)) % 256 = p0 % 4 * 64 + p1 / 16 := by
      rw [and_mask3, shiftl_six, shiftr_four, lor_mul_sixtyfour (by omega)]; omega
    have e2 : (((p1 &&& 15) <<< 4) ||| (p2 >>> 6)) % 256 = p1 % 16 * 16 + p2 / 64 := by
      rw [and_mask15, shiftl_four, shiftr_six, lor_mul_sixteen (by omega)]; omega
    have e3 : (((p2 &&& 63) <<< 2) ||| (p3 >>> 8)) % 256 = p2 % 64 * 4 + p3 / 256 := by
      rw [and_mask63, shiftl_two, shiftr_eight, lor_mul_four (by omega)]; omega
    have e4 : (p3 &&& 255) % 256 = p3 % 256 := by rw [and_mask255]; omega
    show unpackBits
        [(p0 >>> 2) % 256, (((p0 &&& 3) <<< 6) ||| (p1 >>> 4)) % 256,
         (((p1 &&& 15) <<< 4) ||| (p2 >>> 6)) % 256,
         (((p2 &&& 63) <<< 2) ||| (p3 >>> 8)) % 256, (p3 &&& 255) % 256] 4 10 =
      [p0 * 64, p1 * 64, p2 * 64, p3 * 64]
    rw [e0, e1, e2, e3, e4]
    show unpack10Loop
        [p0 / 4, p0 % 4 * 64 + p1 / 16, p1 % 16 * 16 + p2 / 64,
         p2 % 64 * 4 + p3 / 256, p3 % 256] 4 5 0 0 [0, 0, 0, 0] =
      [p0 * 64, p1 * 64, p2 * 64, p3 * 64]
    rw [show (5 : ℕ) = 4 + 1 from rfl, unpack10Loop]
    norm_num [List.getD]
    rw [show (4 : ℕ) = 3 + 1 from rfl, unpack10Loop]
    norm_num
    refine ⟨?_, ?_, ?_, ?_⟩
    · try simp only [shiftl_two, shiftl_four, shiftl_six, shiftl_eight, shiftr_two,
        shiftr_four, shiftr_six, shiftr_eight, and_mask3, and_mask15, and_mask63,
        and_mask255]
      rw [lor_mul_four (by omega)]
      omega
    · try simp only [shiftl_two, shiftl_four, shiftl_six, shiftl_eight, shiftr_two,
        shiftr_four, shiftr_six, shiftr_eight, and_mask3, and_mask15, and_mask63,
        and_mask255]
      rw [lor_mul_sixteen (by omega)]
      omega
    · try simp only [shiftl_two, shiftl_four, shiftl_six, shiftl_eight, shiftr_two,
        shiftr_four, shiftr_six, shiftr_eight, and_mask3, and_mask15, and_mask63,
        and_mask255]
      rw [lor_mul_sixtyfour (by omega)]
      omega
    · try simp only [shiftl_two, shiftl_four, shiftl_six, shiftl_eight, shiftr_two,
        shiftr_four, shiftr_six, shiftr_eight, and_mask3, and_mask15, and_mask63,
        and_mask255]
      rw [lor_mul_twofiftysix (by omega)]
      omega
  · have hgrp : encodeTo12Bit [q0, q1] = encode12Group q0 q1 := by
      simp [encodeTo12Bit]
    rw [hgrp]
    have e0 : (q0 >>> 4) % 256 = q0 / 16 := by rw [shiftr_four]; omega
    have e1 : (((q0 &&& 15) <<< 4) ||| (q1 >>> 8)) % 256 = q0 % 16 * 16 + q1 / 256 := by
      rw [and_mask15, shiftl_four, shiftr_eight, lor_mul_sixteen (by omega)]; omega
    have e2 : (q1 &&& 255) % 256 = q1 % 256 := by rw [and_mask255]; omega
    show unpackBits
        [(q0 >>> 4) % 256, (((q0 &&& 15) <<< 4) ||| (q1 >>> 8)) % 256,
         (q1 &&& 255) % 256] 2 12 = [q0 * 16, q1 * 16]
    rw [e0, e1, e2]
    show unpack12Loop
        [q0 / 16, q0 % 16 * 16 + q1 / 256, q1 % 256] 2 3 0 0 [0, 0] =
      [q0 * 16, q1 * 16]
    rw [show (3 : ℕ) = 2 + 1 from rfl, unpack12Loop]
    norm_num [List.getD]
    rw [show (2 : ℕ) = 1 + 1 from rfl, unpack12Loop]
    norm_num
    refine ⟨?_, ?_⟩
    · try simp only [shiftl_two, shiftl_four, shiftl_six, shiftl_eight, shiftr_two,
        shiftr_four, shiftr_six, shiftr_eight, and_mask3, and_mask15, and_mask63,
        and_mask255]
      rw [lor_mul_sixteen (by omega)]
      omega
    · try simp only [shiftl_two, shiftl_four, shiftl_six, shiftl_eight, shiftr_two,
        shiftr_four, shiftr_six, shiftr_eight, and_mask3, and_mask15, and_mask63,
        and_mask255]
      rw [lor_mul_twofiftysix (by omega)]
      omega
  · show unpackBits [v % 256, v / 256 % 256] 1 16 = [v]
    norm_num [unpackBits, unpackFallback, show List.range 1 = [0] from rfl, List.getD]
    omega

/-- Witness for `bitpack_roundtrip_scaled` at concrete samples. -/
theorem bitpack_roundtrip_scaled_witness :
    (600 < 1024 ∧ 4095 < 4096 ∧ 65535 < 65536) ∧
    unpackBits (encodeTo10Bit [600, 5, 1023, 0]) 4 10 = [38400, 320, 65472, 0] ∧
    unpackBits (encodeTo12Bit [4095, 7]) 2 12 = [65520, 112] ∧
    unpackBits (toLE16Bytes [65535]) 1 16 = [65535] :=
  ⟨by decide,
    (bitpack_roundtrip_scaled 600 5 1023 0 4095 7 65535 (by decide) (by decide)
      (by decide) (by decide) (by decide) (by decide) (by decide)).1,
    (bitpack_roundtrip_scaled 600 5 1023 0 4095 7 65535 (by decide) (by decide)
      (by decide) (by decide) (by decide) (by decide) (by decide)).2.1,
    (bitpack_roundtrip_scaled 600 5 1023 0 4095 7 65535 (by decide) (by decide)
      (by decide) (by decide) (by decide) (by decide) (by decide)).2.2⟩

/-- C7 counterexample: `generateDng` emits the 4x4
CFARepeatPatternDim with a 16-entry pattern for a container with
`needRemosaic = true` even though the `INTERPRET_AS_QUAD_BAYER` option
bit is not set (options = 0), refuting "exactly when the
INTERPRET_AS_QUAD_BAYER option is set and ...". -/
theorem quad_cfa_needs_remosaic_cex :
    (cfaTagInfo true 0 1 .CorrectQBCFAMetadata [0, 1, 1, 2]).1 = (4, 4) ∧
    (cfaTagInfo true 0 1 .CorrectQBCFAMetadata [0, 1, 1, 2]).2.length = 16 ∧
    0 &&& RENDER_OPT_INTERPRET_AS_QUAD_BAYER = 0 := by
  refine ⟨?_, ?_, ?_⟩ <;> decide

/-- C7 (amended): the DNG carries CFARepeatPatternDim 4x4 with a
16-entry CFAPattern exactly when `(needRemosaic or the
INTERPRET_AS_QUAD_BAYER option bit) and draft_scale = 1 and
quad_bayer_option = CorrectQBCFAMetadata`; otherwise it carries the
2x2 dimension with the container's 4-entry pattern.  When the 4x4
pattern is emitted for one of the four supported 2x2 CFA patterns, each
of its entries is the 2x2 entry of the quadrant it lies in:
`qcfa[4*r + c] = cfa[2*(r/2) + c/2]`. -/
theorem quad_cfa_pattern_amended (needRemosaic : Bool) (options draftScale : ℕ)
    (qb : QuadBayerMode) (cfa : List ℕ) :
    ((cfaTagInfo needRemosaic options draftScale qb cfa).1 = (4, 4) ↔
      ((needRemosaic = true ∨ options &&& RENDER_OPT_INTERPRET_AS_QUAD_BAYER ≠ 0) ∧
        draftScale = 1 ∧ qb = .CorrectQBCFAMetadata)) ∧
    ((cfaTagInfo needRemosaic options draftScale qb cfa).1 = (4, 4) →
      (cfaTagInfo needRemosaic options draftScale qb cfa).2.length = 16) ∧
    ((cfaTagInfo needRemosaic options draftScale qb cfa).1 ≠ (4, 4) →
      (cfaTagInfo needRemosaic options draftScale qb cfa).1 = (2, 2) ∧
      (cfaTagInfo needRemosaic options draftScale qb cfa).2 = cfa) ∧
    (cfa ∈ [[0, 1, 1, 2], [2, 1, 1, 0], [1, 0, 2, 1], [1, 2, 0, 1]] →
      ∀ r < 4, ∀ c < 4,
        (quadCfaPattern cfa).getD (4 * r + c) 0 = cfa.getD (2 * (r / 2) + c / 2) 0) := by
  have hiff : interpretAsQuadBayer needRemosaic options = true ↔
      (needRemosaic = true ∨ options &&& RENDER_OPT_INTERPRET_AS_QUAD_BAYER ≠ 0) := by
    unfold interpretAsQuadBayer
    cases needRemosaic <;> simp
  refine ⟨?_, ?_, ?_, ?_⟩
  · unfold cfaTagInfo
    by_cases h : interpretAsQuadBayer needRemosaic options = true ∧ draftScale = 1 ∧
        qb = .CorrectQBCFAMetadata
    · rw [if_pos h]
      simp only [true_iff, eq_self_iff_true]
      exact ⟨hiff.mp h.1, h.2.1, h.2.2⟩
    · rw [if_neg h]
      constructor
      · intro hc; exact absurd hc (by simp)
      · intro hc
        exact absurd ⟨hiff.mpr hc.1, hc.2.1, hc.2.2⟩ h
  · unfold cfaTagInfo
    by_cases h : interpretAsQuadBayer needRemosaic options = true ∧ draftScale = 1 ∧
        qb = .CorrectQBCFAMetadata
    · rw [if_pos h]
      intro _
      unfold quadCfaPattern
      by_cases h1 : cfa = [0, 1, 1, 2]
      · rw [if_pos h1]; decide
      · rw [if_neg h1]
        by_cases h2 : cfa = [2, 1, 1, 0]
        · rw [if_pos h2]; decide
        · rw [if_neg h2]
          by_cases h3 : cfa = [1, 0, 2, 1]
          · rw [if_pos h3]; decide
          · rw [if_neg h3]; decide
    · rw [if_neg h]
      intro hc; exact absurd hc (by simp)
  · unfold cfaTagInfo
    by_cases h : interpretAsQuadBayer needRemosaic options = true ∧ draftScale = 1 ∧
        qb = .CorrectQBCFAMetadata
    · rw [if_pos h]
      intro hc; exact absurd rfl hc
    · rw [if_neg h]
      intro _; exact ⟨rfl, rfl⟩
  · intro hmem
    rcases List.mem_cons.mp hmem with h1 | hmem
    · subst h1; decide
    rcases List.mem_cons.mp hmem with h2 | hmem
    · subst h2; decide
    rcases List.mem_cons.mp hmem with h3 | hmem
    · subst h3; decide
    rcases List.mem_cons.mp hmem with h4 | hmem
    · subst h4; decide
    · exact absurd hmem (by simp)

/-- Witness for `quad_cfa_pattern_amended`: the option bit alone (no
`needRemosaic`) selects the 4x4 pattern, and the pattern expands the
RGGB quadrants. -/
theorem quad_cfa_pattern_amended_witness :
    (cfaTagInfo false 1024 1 .CorrectQBCFAMetadata [0, 1, 1, 2]).1 = (4, 4) ∧
    (quadCfaPattern [0, 1, 1, 2]).getD (4 * 2 + 1) 0 = [0, 1, 1, 2].getD 2 0 :=
  ⟨(quad_cfa_pattern_amended false 1024 1 .CorrectQBCFAMetadata [0, 1, 1, 2]).1.mpr
      (by decide),
    (quad_cfa_pattern_amended false 1024 1 .CorrectQBCFAMetadata [0, 1, 1, 2]).2.2.2
      (by decide) 2 (by decide) 1 (by decide)⟩

/-- C10: in Quad-Bayer 2x2 binning (`cfaSize == 2 && scale == 2`), each
binned sample equals the sum of its four source sub-samples reduced
modulo `2^16`: the sum of four `uint16_t` reads is stored back into a
`uint16_t`, so a true sum above 65535 wraps around instead of
saturating, while the source black and white levels are scaled by 4
(`srcWhiteLevel *= cfaSize * cfaSize`). -/
theorem quad_binning_mod_2pow16 :
    (∀ (src : ℕ → ℕ) (W srcX srcY : ℕ) (i : Fin 4),
      fetchQuadBinned src W srcX srcY i = trueQuadSum src W srcX srcY i % 65536) ∧
    (fetchQuadBinned (fun _ => 40000) 4 0 0 0 = 28928 ∧
      trueQuadSum (fun _ => 40000) 4 0 0 0 = 160000 ∧
      (28928 : ℕ) ≠ 160000 ∧ (28928 : ℕ) ≠ 65535) ∧
    (∀ srcWhite : ℚ, effectiveSrcWhite srcWhite true 2 = srcWhite * 4) := by
  refine ⟨fun _ _ _ _ _ => rfl, by decide, fun srcWhite => ?_⟩
  norm_num [effectiveSrcWhite, normalizeScale]

theorem failCount_cons (o : FrameOutcome) (l : List FrameOutcome) :
    failCount (o :: l) = (if o = .success then 0 else 1) + failCount l := by
  cases o <;> simp [failCount, List.filter_cons] <;> omega

theorem successCount_cons (o : FrameOutcome) (l : List FrameOutcome) :
    successCount (o :: l) = (if o = .success then 1 else 0) + successCount l := by
  cases o <;> simp [successCount, List.filter_cons]
  omega

theorem processFramesLoop_error_iff (outcomes : List FrameOutcome) :
    ∀ total s f : ℕ, processFramesLoop total outcomes s f = Except.error () ↔
      ((∃ k, outcomes[k]? = some FrameOutcome.errorThrown ∧
          ((f + failCount (outcomes.take (k + 1)) : ℕ) : ℚ) > (total : ℚ) * (8 / 10)) ∨
        s + successCount outcomes = 0) := by
  induction outcomes with
  | nil =>
    intro total s f
    constructor
    · intro h
      by_cases hs : s = 0
      · right; simp [successCount, hs]
      · exfalso
        simp only [processFramesLoop, if_neg hs] at h
        exact Except.noConfusion h
    · intro h
      rcases h with ⟨k, hk, _⟩ | h
      · simp at hk
      · have hs : s = 0 := by simpa [successCount] using h
        simp [processFramesLoop, hs]
  | cons o rest ih =>
    intro total s f
    cases o with
    | success =>
      have hL : processFramesLoop total (FrameOutcome.success :: rest) s f
          = processFramesLoop total rest (s + 1) f := rfl
      rw [hL, ih total (s + 1) f]
      constructor
      · rintro (⟨k, hk, hc⟩ | hzero)
        · refine Or.inl ⟨k + 1, by simpa using hk, ?_⟩
          rw [List.take_succ_cons, failCount_cons]
          simpa using hc
        · exact absurd hzero (by omega)
      · rintro (⟨k, hk, hc⟩ | hzero)
        · cases k with
          | zero => simp at hk
          | succ k =>
            refine Or.inl ⟨k, by simpa using hk, ?_⟩
            rw [List.take_succ_cons, failCount_cons] at hc
            simpa using hc
        · rw [successCount_cons] at hzero
          exact absurd hzero (by simp)
    | emptyData =>
      have hL : processFramesLoop total (FrameOutcome.emptyData :: rest) s f
          = processFramesLoop total rest s (f + 1) := rfl
      rw [hL, ih total s (f + 1)]
      constructor
      · rintro (⟨k, hk, hc⟩ | hzero)
        · refine Or.inl ⟨k + 1, by simpa using hk, ?_⟩
          rw [List.take_succ_cons, failCount_cons]
          have : f + 1 + failCount (rest.take (k + 1))
              = f + ((if FrameOutcome.emptyData = FrameOutcome.success then 0 else 1) +
                  failCount (rest.take (k + 1))) := by simp; omega
          rw [← this]
          exact hc
        · right
          rw [successCount_cons]
          simpa using hzero
      · rintro (⟨k, hk, hc⟩ | hzero)
        · cases k with
          | zero => simp at hk
          | succ k =>
            refine Or.inl ⟨k, by simpa using hk, ?_⟩
            rw [List.take_succ_cons, failCount_cons] at hc
            have : f + ((if FrameOutcome.emptyData = FrameOutcome.success then 0 else 1) +
                failCount (rest.take (k + 1))) = f + 1 + failCount (rest.take (k + 1)) := by
              simp; omega
            rw [this] at hc
            exact hc
        · right
          rw [successCount_cons] at hzero
          simpa using hzero
    | errorThrown =>
      by_cases hth : ((f + 1 : ℕ) : ℚ) > (total : ℚ) * (8 / 10)
      · have hL : processFramesLoop total (FrameOutcome.errorThrown :: rest) s f
            = Except.error () := by
          simp only [processFramesLoop]
          rw [if_pos (by exact_mod_cast hth)]
        rw [hL]
        constructor
        · intro _
          refine Or.inl ⟨0, by simp, ?_⟩
          have h0 : failCount ([] : List FrameOutcome) = 0 := by simp [failCount]
          rw [List.take_succ_cons, List.take_zero, failCount_cons, h0]
          simp only [if_neg (by decide : ¬FrameOutcome.errorThrown = FrameOutcome.success)]
          push_cast at hth ⊢
          linarith
        · intro _; rfl
      · have hL : processFramesLoop total (FrameOutcome.errorThrown :: rest) s f
            = processFramesLoop total rest s (f + 1) := by
          simp only [processFramesLoop]
          rw [if_neg (by exact_mod_cast hth)]
        rw [hL, ih total s (f + 1)]
        constructor
        · rintro (⟨k, hk, hc⟩ | hzero)
          · refine Or.inl ⟨k + 1, by simpa using hk, ?_⟩
            rw [List.take_succ_cons, failCount_cons]
            have : f + ((if FrameOutcome.errorThrown = FrameOutcome.success then 0 else 1) +
                failCount (rest.take (k + 1))) = f + 1 + failCount (rest.take (k + 1)) := by
              simp; omega
            rw [this]
            exact hc
          · right
            rw [successCount_cons]
            simpa using hzero
        · rintro (⟨k, hk, hc⟩ | hzero)
          · cases k with
            | zero =>
              exfalso
              refine hth ?_
              have h0 : failCount ([] : List FrameOutcome) = 0 := by simp [failCount]
              rw [List.take_succ_cons, List.take_zero, failCount_cons, h0] at hc
              simp only [if_neg (by decide : ¬FrameOutcome.errorThrown = FrameOutcome.success)] at hc
              push_cast at hc ⊢
              linarith
            | succ k =>
              refine Or.inl ⟨k, by simpa using hk, ?_⟩
              rw [List.take_succ_cons, failCount_cons] at hc
              have : f + ((if FrameOutcome.errorThrown = FrameOutcome.success then 0 else 1) +
                  failCount (rest.take (k + 1))) = f + 1 + failCount (rest.take (k + 1)) := by
                simp; omega
              rw [this] at hc
              exact hc
          · right
            rw [successCount_cons] at hzero
            simpa using hzero

/-- C9 counterexample: nine of ten frames fail through the empty-data
path (no `bayerData`), exceeding 80 percent of the total, yet the job
completes normally with counts `(1 successful, 9 failed)` - the 80
percent threshold is only checked on the exception path. -/
theorem failure_threshold_empty_path_cex :
    processClientFrames
        (List.replicate 9 FrameOutcome.emptyData ++ [FrameOutcome.success]) =
      Except.ok (1, 9) ∧
    ((9 : ℚ) > (10 : ℚ) * (8 / 10)) := by
  constructor
  · rfl
  · norm_num

/-- C9 (amended): a failing frame only increments the failure count and
processing continues with the next frame; the job aborts mid-run exactly
when some frame fails on the exception path with the cumulative failure
count (empty-data failures included) strictly exceeding 80 percent of
the frames to process, and a completed run with zero successful frames
also ends in an error. -/
theorem failure_abort_characterization (outcomes : List FrameOutcome) :
    processClientFrames outcomes = Except.error () ↔
      ((∃ k, outcomes[k]? = some FrameOutcome.errorThrown ∧
          ((failCount (outcomes.take (k + 1)) : ℕ) : ℚ) >
            (outcomes.length : ℚ) * (8 / 10)) ∨
        successCount outcomes = 0) := by
  have h := processFramesLoop_error_iff outcomes outcomes.length 0 0
  simpa [processClientFrames] using h

/-- Witness for `failure_abort_characterization`: a single frame failing
with an exception crosses the threshold (1 > 0.8) and aborts the job. -/
theorem failure_abort_characterization_witness :
    processClientFrames [FrameOutcome.errorThrown] = Except.error () :=
  (failure_abort_characterization [FrameOutcome.errorThrown]).mpr
    (Or.inl ⟨0, by decide, by
      have h1 : failCount (List.take (0 + 1) [FrameOutcome.errorThrown]) = 1 := rfl
      rw [h1]
      norm_num⟩)

/-- C8: FPS inference.  Whenever the raw fps computed from the median
timestamp delta lies within 5 percent relative distance of 29.97, the
inferred frame rate is exactly 29.97 (and therefore not 30): 29.97
precedes 30 in `commonRates` and the windows of the earlier members 18,
24 and 25 are disjoint from the 29.97 window.  More generally, whenever
the raw fps lies within 5 percent relative distance of some member of
`commonRates`, the inferred rate is a member of `commonRates`. -/
theorem fps_snap_drop_frame (ts : List ℚ) (h2 : 2 ≤ ts.length)
    (hne : calcDeltas ts ≠ []) :
    ((|rawFps ts - 2997 / 100| / (2997 / 100) < 1 / 20) →
      calculateFpsFromTimestamps ts = 2997 / 100) ∧
    (∀ m ∈ commonRates, |rawFps ts - m| / m < 1 / 20 →
      calculateFpsFromTimestamps ts ∈ commonRates) := by
  have hlen : ¬ts.length < 2 := by omega
  constructor
  · intro hclose
    rw [div_lt_iff₀ (by norm_num : (0 : ℚ) < 2997 / 100)] at hclose
    obtain ⟨hlo, hhi⟩ := abs_lt.mp hclose
    have hfind : commonRates.find? (fun r => decide (|rawFps ts - r| / r < 1 / 20)) =
        some (2997 / 100) := by
      unfold commonRates
      rw [List.find?_cons_of_neg _ (by
        simp only [decide_eq_true_eq]
        rw [div_lt_iff₀ (by norm_num : (0 : ℚ) < 18), not_lt]
        rw [show |rawFps ts - 18| = rawFps ts - 18 from abs_of_pos (by linarith)]
        linarith)]
      rw [List.find?_cons_of_neg _ (by
        simp only [decide_eq_true_eq]
        rw [div_lt_iff₀ (by norm_num : (0 : ℚ) < 24), not_lt]
        rw [show |rawFps ts - 24| = rawFps ts - 24 from abs_of_pos (by linarith)]
        linarith)]
      rw [List.find?_cons_of_neg _ (by
        simp only [decide_eq_true_eq]
        rw [div_lt_iff₀ (by norm_num : (0 : ℚ) < 25), not_lt]
        rw [show |rawFps ts - 25| = rawFps ts - 25 from abs_of_pos (by linarith)]
        linarith)]
      rw [List.find?_cons_of_pos _ (by
        simp only [decide_eq_true_eq]
        rw [div_lt_iff₀ (by norm_num : (0 : ℚ) < 2997 / 100)]
        rw [abs_lt]
        constructor <;> linarith)]
    unfold calculateFpsFromTimestamps
    rw [if_neg hlen, if_neg hne]
    simp only [hfind]
  · intro m hm hmc
    have hsome : (commonRates.find? fun r => decide (|rawFps ts - r| / r < 1 / 20)).isSome
        = true := by
      cases hf : commonRates.find? fun r => decide (|rawFps ts - r| / r < 1 / 20) with
      | some r => rfl
      | none =>
        exfalso
        have := List.find?_eq_none.mp hf m hm
        simp only [decide_eq_true_eq] at this
        exact this hmc
    obtain ⟨r, hr⟩ := Option.isSome_iff_exists.mp hsome
    unfold calculateFpsFromTimestamps
    rw [if_neg hlen, if_neg hne]
    simp only [hr]
    exact List.mem_of_find?_eq_some hr

/-- Witness for `fps_snap_drop_frame`: timestamps with deltas of
100/3 ms give raw fps 30, within 5 percent of 29.97, and the inferred
rate is 29.97. -/
theorem fps_snap_drop_frame_witness :
    (2 ≤ ([0, 100 / 3, 200 / 3] : List ℚ).length ∧
      calcDeltas [0, 100 / 3, 200 / 3] ≠ [] ∧
      |rawFps [0, 100 / 3, 200 / 3] - 2997 / 100| / (2997 / 100) < 1 / 20) ∧
    calculateFpsFromTimestamps [0, 100 / 3, 200 / 3] = 2997 / 100 := by
  have hd : calcDeltas [0, 100 / 3, 200 / 3] = [100 / 3, 100 / 3] := by
    norm_num [calcDeltas]
  have hne : calcDeltas [0, 100 / 3, 200 / 3] ≠ [] := by rw [hd]; simp
  have hmd : medianDelta [0, 100 / 3, 200 / 3] = 100 / 3 := by
    norm_num [medianDelta, sortedDeltas, hd, List.insertionSort, List.orderedInsert]
  have hraw : rawFps [0, 100 / 3, 200 / 3] = 30 := by
    norm_num [rawFps, hmd]
  have hclose : |rawFps [0, 100 / 3, 200 / 3] - 2997 / 100| / (2997 / 100) < 1 / 20 := by
    rw [hraw, show (30 : ℚ) - 2997 / 100 = 3 / 100 by norm_num,
      abs_of_pos (by norm_num : (0 : ℚ) < 3 / 100)]
    norm_num
  exact ⟨⟨by norm_num, hne, hclose⟩,
    (fps_snap_drop_frame [0, 100 / 3, 200 / 3] (by norm_num) hne).1 hclose⟩

theorem scan1Loop_stop (bytes : List ℕ) (e : ℕ) (p : ℕ → ℕ → Option PerFrameMeta)
    (fuel offset consec : ℕ) (cur : Option PerFrameMeta) (acc : List FrameRec)
    (h : ¬(offset < bytes.length - 8 ∧ consec < 5)) :
    scan1Loop bytes e p fuel offset consec cur acc = acc := by
  cases fuel with
  | zero => rfl
  | succ n =>
    simp only [scan1Loop]
    rw [if_neg h]

theorem scan1Loop_frame (bytes : List ℕ) (e : ℕ) (p : ℕ → ℕ → Option PerFrameMeta)
    (fuel offset consec : ℕ) (cur : Option PerFrameMeta) (acc : List FrameRec)
    (h : offset < bytes.length - 8 ∧ consec < 5)
    (ht : getU32LE bytes offset = 2)
    (hs : 1024 ≤ getU32LE bytes (offset + 4) ∧ getU32LE bytes (offset + 4) ≤ 52428800) :
    scan1Loop bytes e p (fuel + 1) offset consec cur acc =
      scan1Loop bytes e p fuel (offset + 8 + getU32LE bytes (offset + 4)) 0 none
        (acc ++ [{ offset := offset + 8, size := getU32LE bytes (offset + 4),
                   blockType := 2,
                   compressed :=
                     decide ((getU32LE bytes (offset + 4) : ℚ) < (e : ℚ) * (9 / 10)),
                   timestamp := timestampRule (cur.getD ⟨none, none, none⟩) acc.length,
                   meta := cur.getD ⟨none, none, none⟩ }]) := by
  simp only [scan1Loop]
  rw [if_pos h, if_pos ⟨ht, hs.1, hs.2⟩]
  rfl

theorem scan1Loop_records (bytes : List ℕ) (e : ℕ) (p : ℕ → ℕ → Option PerFrameMeta)
    (P : ℕ → FrameRec → Prop)
    (hpush : ∀ (offset : ℕ) (cur : Option PerFrameMeta) (n : ℕ),
      P n { offset := offset + 8, size := getU32LE bytes (offset + 4), blockType := 2,
            compressed :=
              decide ((getU32LE bytes (offset + 4) : ℚ) < (e : ℚ) * (9 / 10)),
            timestamp := timestampRule (cur.getD ⟨none, none, none⟩) n,
            meta := cur.getD ⟨none, none, none⟩ }) :
    ∀ (fuel offset consec : ℕ) (cur : Option PerFrameMeta) (acc : List FrameRec),
      (∀ k r, acc[k]? = some r → P k r) →
      ∀ k r, (scan1Loop bytes e p fuel offset consec cur acc)[k]? = some r → P k r := by
  intro fuel
  induction fuel with
  | zero =>
    intro offset consec cur acc hacc k r hr
    exact hacc k r hr
  | succ n ih =>
    intro offset consec cur acc hacc k r hr
    simp only [scan1Loop] at hr
    by_cases h1 : offset < bytes.length - 8 ∧ consec < 5
    · rw [if_pos h1] at hr
      by_cases h2 : getU32LE bytes offset = 2 ∧ 1024 ≤ getU32LE bytes (offset + 4) ∧
          getU32LE bytes (offset + 4) ≤ 52428800
      · rw [if_pos h2] at hr
        refine ih _ _ _ _ ?_ k r hr
        intro k2 r2 hk2
        by_cases hlt : k2 < acc.length
        · rw [List.getElem?_append_left hlt] at hk2
          exact hacc k2 r2 hk2
        · by_cases heq : k2 = acc.length
          · subst heq
            rw [List.getElem?_concat_length] at hk2
            cases hk2
            exact hpush offset cur acc.length
          · exfalso
            rw [List.getElem?_append_right (by omega)] at hk2
            rw [show k2 - acc.length = (k2 - acc.length - 1) + 1 by omega] at hk2
            simp at hk2
      · rw [if_neg h2] at hr
        by_cases h3 : getU32LE bytes offset = 3 ∧ 100 ≤ getU32LE bytes (offset + 4) ∧
            getU32LE bytes (offset + 4) ≤ 10485760
        · rw [if_pos h3] at hr
          cases hp : p (offset + 8) (getU32LE bytes (offset + 4)) with
          | some m =>
            rw [hp] at hr
            exact ih _ _ _ _ hacc k r hr
          | none =>
            rw [hp] at hr
            exact ih _ _ _ _ hacc k r hr
        · rw [if_neg h3] at hr
          exact ih _ _ _ _ hacc k r hr
    · rw [if_neg h1] at hr
      exact hacc k r hr

theorem scan2Loop_stop (bytes : List ℕ) (fuel offset : ℕ) (acc : List FrameRec)
    (h : ¬offset < bytes.length - 8) :
    scan2Loop bytes fuel offset acc = acc := by
  cases fuel with
  | zero => rfl
  | succ n =>
    simp only [scan2Loop]
    rw [if_neg h]

theorem scan2Loop_records (bytes : List ℕ) (P : ℕ → FrameRec → Prop)
    (hpush : ∀ (offset n : ℕ),
      P n { offset := offset + 4, size := getU32LE bytes offset, blockType := 2,
            compressed := true, timestamp := (n : ℚ) * (1000 / 24),
            meta := ⟨none, none, none⟩ }) :
    ∀ (fuel offset : ℕ) (acc : List FrameRec),
      (∀ k r, acc[k]? = some r → P k r) →
      ∀ k r, (scan2Loop bytes fuel offset acc)[k]? = some r → P k r := by
  intro fuel
  induction fuel with
  | zero =>
    intro offset acc hacc k r hr
    exact hacc k r hr
  | succ n ih =>
    intro offset acc hacc k r hr
    simp only [scan2Loop] at hr
    by_cases h1 : offset < bytes.length - 8
    · rw [if_pos h1] at hr
      by_cases h2 : 1024 ≤ getU32LE bytes offset ∧ getU32LE bytes offset ≤ 52428800 ∧
          offset + 4 + getU32LE bytes offset ≤ bytes.length ∧
          isZstdMagicAt bytes (offset + 4) = true
      · rw [if_pos h2] at hr
        refine ih _ _ ?_ k r hr
        intro k2 r2 hk2
        by_cases hlt : k2 < acc.length
        · rw [List.getElem?_append_left hlt] at hk2
          exact hacc k2 r2 hk2
        · by_cases heq : k2 = acc.length
          · subst heq
            rw [List.getElem?_concat_length] at hk2
            cases hk2
            exact hpush offset acc.length
          · exfalso
            rw [List.getElem?_append_right (by omega)] at hk2
            rw [show k2 - acc.length = (k2 - acc.length - 1) + 1 by omega] at hk2
            simp at hk2
      · rw [if_neg h2] at hr
        exact hacc k r hr
    · rw [if_neg h1] at hr
      exact hacc k r hr

theorem getU32LE_append_left (l1 l2 : List ℕ) (k : ℕ) (h : k + 3 < l1.length) :
    getU32LE (l1 ++ l2) k = getU32LE l1 k := by
  unfold getU32LE
  simp only [List.getD_eq_getElem?_getD]
  rw [List.getElem?_append_left (by omega), List.getElem?_append_left (by omega),
      List.getElem?_append_left (by omega), List.getElem?_append_left (by omega)]

theorem getU32LE_append_right (l1 l2 : List ℕ) (k : ℕ) :
    getU32LE (l1 ++ l2) (l1.length + k) = getU32LE l2 k := by
  unfold getU32LE
  simp only [List.getD_eq_getElem?_getD]
  rw [List.getElem?_append_right (by omega), List.getElem?_append_right (by omega),
      List.getElem?_append_right (by omega), List.getElem?_append_right (by omega)]
  have h1 : l1.length + k - l1.length = k := by omega
  have h2 : l1.length + k + 1 - l1.length = k + 1 := by omega
  have h3 : l1.length + k + 2 - l1.length = k + 2 := by omega
  have h4 : l1.length + k + 3 - l1.length = k + 3 := by omega
  rw [h1, h2, h3, h4]

theorem cexA_len : cexBytesA.length = 1032 := by
  show ([2, 0, 0, 0, 0, 4, 0, 0, 40, 181, 47, 253] ++ List.replicate 1020 0).length = 1032
  rw [List.length_append, List.length_replicate]
  rfl

theorem cexA_g0 : getU32LE cexBytesA 0 = 2 := by
  show getU32LE ([2, 0, 0, 0, 0, 4, 0, 0, 40, 181, 47, 253] ++ List.replicate 1020 0) 0 = 2
  rw [getU32LE_append_left _ _ _ (by simp)]
  rfl

theorem cexA_g4 : getU32LE cexBytesA (0 + 4) = 1024 := by
  show getU32LE ([2, 0, 0, 0, 0, 4, 0, 0, 40, 181, 47, 253] ++ List.replicate 1020 0)
      (0 + 4) = 1024
  rw [getU32LE_append_left _ _ _ (by simp)]
  rfl

theorem cexA_zstd : isZstdMagicAt cexBytesA 8 = true := by
  show isZstdMagicAt ([2, 0, 0, 0, 0, 4, 0, 0, 40, 181, 47, 253] ++
      List.replicate 1020 0) 8 = true
  unfold isZstdMagicAt
  rw [if_neg (by rw [List.length_append, List.length_replicate]; norm_num)]
  simp only [List.getD_eq_getElem?_getD]
  rw [List.getElem?_append_left (by simp), List.getElem?_append_left (by simp),
      List.getElem?_append_left (by simp), List.getElem?_append_left (by simp)]
  rfl

theorem cexA_flag :
    decide (((1024 : ℕ) : ℚ) < ((1134 : ℕ) : ℚ) * (9 / 10)) = false := by
  rw [decide_eq_false]
  push_cast
  norm_num

theorem cexA_scan_eq :
    scanTypePrefixedBlocks cexBytesA 0 1134 (fun _ _ => none) = [cexRecA] := by
  unfold scanTypePrefixedBlocks
  rw [cexA_len]
  rw [scan1Loop_frame cexBytesA 1134 (fun _ _ => none) 1032 0 0 none []
    (by rw [cexA_len]; norm_num) cexA_g0 (by rw [cexA_g4]; norm_num)]
  rw [cexA_g4]
  rw [show 0 + 8 + 1024 = 1032 from rfl]
  rw [scan1Loop_stop cexBytesA 1134 (fun _ _ => none) 1032 1032 0 none _
    (by rw [cexA_len]; norm_num)]
  rfl

/-- C4 counterexample: strategy 1 indexes a frame whose 1024-byte payload
begins with the zstd magic, yet marks it `compressed = false`, because
its size is not below `0.9 * expected12BitSize = 1020.6` - the flag
ignores the magic test entirely. -/
theorem compressed_flag_magic_ignored_cex :
    (scanTypePrefixedBlocks cexBytesA 0 1134 (fun _ _ => none)).map
      (fun r => (r.offset, r.size, r.compressed)) = [(8, 1024, false)] ∧
    isZstdMagicAt cexBytesA 8 = true := by
  constructor
  · rw [cexA_scan_eq]
    simp only [List.map_cons, List.map_nil]
    rw [show cexRecA.compressed
        = decide (((1024 : ℕ) : ℚ) < ((1134 : ℕ) : ℚ) * (9 / 10)) from rfl, cexA_flag]
    rfl
  · exact cexA_zstd

/-- C4 (amended): each detection strategy assigns the `compressed` flag
by its own rule.  Strategy 1 (type-prefixed blocks) uses only the size
test `blockSize < expected12BitSize * 0.9`; strategies 2 (size-prefixed
zstd) and 3 (magic scan) always mark frames compressed; strategy 4
(fixed-size partition) uses only the zstd-magic test at the frame
offset; strategy 5 (raw Bayer partition) always marks frames
uncompressed. -/
theorem compressed_flag_per_strategy :
    (∀ (bytes : List ℕ) (start e : ℕ) (p : ℕ → ℕ → Option PerFrameMeta) (r : FrameRec),
      r ∈ scanTypePrefixedBlocks bytes start e p →
      r.compressed = decide ((r.size : ℚ) < (e : ℚ) * (9 / 10))) ∧
    (∀ (bytes : List ℕ) (start : ℕ) (r : FrameRec),
      r ∈ scanSizePrefixedZstd bytes start → r.compressed = true) ∧
    (∀ (bytes : List ℕ) (start : ℕ) (r : FrameRec),
      r ∈ scanZstdMagic bytes start → r.compressed = true) ∧
    (∀ (bytes : List ℕ) (start numSegments : ℕ) (r : FrameRec),
      r ∈ applyFixedFrameSize bytes start numSegments →
      r.compressed = isZstdMagicAt bytes r.offset) ∧
    (∀ (bytes : List ℕ) (start width height : ℕ) (r : FrameRec),
      r ∈ scanRawBayerBlocks bytes start width height → r.compressed = false) := by
  refine ⟨?_, ?_, ?_, ?_, ?_⟩
  · intro bytes start e p r hmem
    obtain ⟨k, hk⟩ := List.mem_iff_getElem?.mp hmem
    exact scan1Loop_records bytes e p
      (fun _ r => r.compressed = decide ((r.size : ℚ) < (e : ℚ) * (9 / 10)))
      (fun _ _ _ => rfl) _ _ _ _ _ (by intro k2 r2 h2; simp at h2) k r hk
  · intro bytes start r hmem
    obtain ⟨k, hk⟩ := List.mem_iff_getElem?.mp hmem
    exact scan2Loop_records bytes (fun _ r => r.compressed = true)
      (fun _ _ => rfl) _ _ _ (by intro k2 r2 h2; simp at h2) k r hk
  · intro bytes start r hmem
    unfold scanZstdMagic at hmem
    obtain ⟨i, _, hsome⟩ := List.mem_filterMap.mp hmem
    try simp only [] at hsome
    rw [Option.ite_none_right_eq_some] at hsome
    obtain ⟨-, h2⟩ := hsome
    cases h2
    rfl
  · intro bytes start numSegments r hmem
    unfold applyFixedFrameSize at hmem
    split at hmem
    · exact absurd hmem (by simp)
    · try simp only [] at hmem
      split at hmem
      · exact absurd hmem (by simp)
      · obtain ⟨i, _, hsome⟩ := List.mem_filterMap.mp hmem
        try simp only [] at hsome
        rw [Option.ite_none_right_eq_some] at hsome
        obtain ⟨-, h2⟩ := hsome
        cases h2
        rfl
  · intro bytes start width height r hmem
    unfold scanRawBayerBlocks at hmem
    split at hmem
    · exact absurd hmem (by simp)
    · try simp only [] at hmem
      split at hmem
      · exact absurd hmem (by simp)
      · obtain ⟨i, _, heq⟩ := List.mem_map.mp hmem
        rw [← heq]

/-- Witness for `compressed_flag_per_strategy` on the concrete container
`cexBytesA`. -/
theorem compressed_flag_per_strategy_witness :
    cexRecA ∈ scanTypePrefixedBlocks cexBytesA 0 1134 (fun _ _ => none) ∧
    cexRecA.compressed = decide ((cexRecA.size : ℚ) < ((1134 : ℕ) : ℚ) * (9 / 10)) :=
  ⟨by rw [cexA_scan_eq]; exact List.mem_singleton.mpr rfl,
    compressed_flag_per_strategy.1 cexBytesA 0 1134 (fun _ _ => none) cexRecA
      (by rw [cexA_scan_eq]; exact List.mem_singleton.mpr rfl)⟩

theorem cexBlock_len : cexBlock.length = 1032 := by
  show ([2, 0, 0, 0, 0, 4, 0, 0] ++ List.replicate 1024 0).length = 1032
  rw [List.length_append, List.length_replicate]
  rfl

theorem cexB_len : cexBytesB.length = 2064 := by
  show (cexBlock ++ cexBlock).length = 2064
  rw [List.length_append, cexBlock_len]

theorem cexBlock_g0 : getU32LE cexBlock 0 = 2 := by
  show getU32LE ([2, 0, 0, 0, 0, 4, 0, 0] ++ List.replicate 1024 0) 0 = 2
  rw [getU32LE_append_left _ _ _ (by simp)]
  rfl

theorem cexBlock_g4 : getU32LE cexBlock 4 = 1024 := by
  show getU32LE ([2, 0, 0, 0, 0, 4, 0, 0] ++ List.replicate 1024 0) 4 = 1024
  rw [getU32LE_append_left _ _ _ (by simp)]
  rfl

theorem cexB_g0 : getU32LE cexBytesB 0 = 2 := by
  show getU32LE (cexBlock ++ cexBlock) 0 = 2
  rw [getU32LE_append_left _ _ _ (by rw [cexBlock_len]; norm_num)]
  exact cexBlock_g0

theorem cexB_g4 : getU32LE cexBytesB (0 + 4) = 1024 := by
  show getU32LE (cexBlock ++ cexBlock) (0 + 4) = 1024
  rw [getU32LE_append_left _ _ _ (by rw [cexBlock_len]; norm_num)]
  exact cexBlock_g4

theorem cexB_g1032 : getU32LE cexBytesB 1032 = 2 := by
  have h := getU32LE_append_right cexBlock cexBlock 0
  rw [cexBlock_len] at h
  norm_num at h
  exact h.trans cexBlock_g0

theorem cexB_g1036 : getU32LE cexBytesB (1032 + 4) = 1024 := by
  have h := getU32LE_append_right cexBlock cexBlock 4
  rw [cexBlock_len] at h
  norm_num at h
  exact h.trans cexBlock_g4

/-- C5 counterexample: frames without per-frame JSON timestamps get
`frameCount * (1000000 / 24)` - microseconds, not seconds.  The second
frame's record carries `125000/3` (= 41666.67 us), not `1/24`. -/
theorem timestamp_fallback_unit_cex :
    (scanTypePrefixedBlocks cexBytesB 0 1134 (fun _ _ => none)).map
      (fun r => r.timestamp) = [0, 125000 / 3] ∧
    (125000 / 3 : ℚ) ≠ 1 / 24 := by
  constructor
  · unfold scanTypePrefixedBlocks
    rw [cexB_len]
    rw [scan1Loop_frame cexBytesB 1134 (fun _ _ => none) 2064 0 0 none []
      (by rw [cexB_len]; norm_num) cexB_g0 (by rw [cexB_g4]; norm_num)]
    rw [cexB_g4]
    rw [show 0 + 8 + 1024 = 1032 from rfl]
    rw [show (2064 : ℕ) = 2063 + 1 from rfl]
    rw [scan1Loop_frame cexBytesB 1134 (fun _ _ => none) 2063 1032 0 none _
      (by rw [cexB_len]; norm_num) cexB_g1032 (by rw [cexB_g1036]; norm_num)]
    rw [cexB_g1036]
    rw [show 1032 + 8 + 1024 = 2064 from rfl]
    rw [scan1Loop_stop cexBytesB 1134 (fun _ _ => none) 2063 2064 0 none _
      (by rw [cexB_len]; norm_num)]
    simp only [List.nil_append, List.append_assoc, List.cons_append, List.map_cons,
      List.map_nil, List.length_cons, List.length_nil, List.length_append]
    norm_num [timestampRule]
  · norm_num

/-- C5 (amended): in strategy 1 (type-prefixed blocks) the k-th frame
record's timestamp follows `timestampRule`: a truthy per-frame JSON
timestamp is used unchanged, a missing or zero one is replaced by
`k * (1000000 / 24)` - `k / 24` seconds expressed in microseconds; in
strategy 2 (size-prefixed zstd) the k-th record's timestamp is always
`k * (1000 / 24)` - `k / 24` seconds expressed in milliseconds.  In
neither strategy is the stored number `k / 24` itself. -/
theorem timestamp_assignment_amended :
    (∀ (bytes : List ℕ) (start e : ℕ) (p : ℕ → ℕ → Option PerFrameMeta) (k : ℕ)
        (r : FrameRec), (scanTypePrefixedBlocks bytes start e p)[k]? = some r →
      r.timestamp = timestampRule r.meta k) ∧
    (∀ (bytes : List ℕ) (start k : ℕ) (r : FrameRec),
      (scanSizePrefixedZstd bytes start)[k]? = some r →
      r.timestamp = (k : ℚ) * (1000 / 24)) := by
  constructor
  · intro bytes start e p k r hk
    exact scan1Loop_records bytes e p
      (fun k r => r.timestamp = timestampRule r.meta k)
      (fun _ _ _ => rfl) _ _ _ _ _ (by intro k2 r2 h2; simp at h2) k r hk
  · intro bytes start k r hk
    exact scan2Loop_records bytes
      (fun k r => r.timestamp = (k : ℚ) * (1000 / 24))
      (fun _ _ => rfl) _ _ _ (by intro k2 r2 h2; simp at h2) k r hk

/-- Witness for `timestamp_assignment_amended` on the concrete container
`cexBytesA`. -/
theorem timestamp_assignment_amended_witness :
    (scanTypePrefixedBlocks cexBytesA 0 1134 (fun _ _ => none))[0]? = some cexRecA ∧
    cexRecA.timestamp = timestampRule cexRecA.meta 0 :=
  ⟨by rw [cexA_scan_eq]; rfl,
    timestamp_assignment_amended.1 cexBytesA 0 1134 (fun _ _ => none) 0 cexRecA
      (by rw [cexA_scan_eq]; rfl)⟩



/-! ### C3 theorems -/

theorem zpow_min16_bound (e : ℤ) : (2 : ℚ) ^ (min 16 e) - 1 ≤ 65535 := by
  have h1 : (2 : ℚ) ^ (min 16 e) ≤ (2 : ℚ) ^ (16 : ℤ) :=
    zpow_le_zpow_right₀ (by norm_num) (min_le_left _ _)
  have h2 : (2 : ℚ) ^ (16 : ℤ) = 65536 := by norm_num
  linarith

/-- C3 counterexample: with Quad-Bayer interpretation at scale 2 and no
shading map, a 16-bit source white level of 65535 is multiplied by 4 and
then passed through unchanged (no log transform), so the computed
`dstWhiteLevel` is 262140 > 2^16 - 1. -/
theorem dst_white_level_quad_overflow_cex :
    computeDstWhiteLevel 65535 true 2 false false false .Disabled = 262140 ∧
    ¬((262140 : ℚ) ≤ 65535) := by
  constructor
  · have h : effectiveSrcWhite 65535 true 2 = 262140 := by
      norm_num [effectiveSrcWhite, normalizeScale]
    simp only [computeDstWhiteLevel, h, Bool.false_eq_true, if_false]
  · norm_num

/-- C3 (amended): whenever the Quad-Bayer-compensated source white level
still fits in 16 bits, the computed `dstWhiteLevel` is at most 2^16 - 1
(the passthrough branches return it unchanged and the recomputing branches
produce `2^min(16,·) - 1 ≤ 65535`); and independently every stored sample
`clamp(round(p + dstBlack), 0, dstWhiteLevel)` lies in `[0, dstWhiteLevel]`
whenever `dstWhiteLevel` is nonnegative. -/
theorem dst_white_level_bound_amended (srcWhite : ℚ) (quad : Bool) (draftScale : ℕ)
    (asm nsm dbg : Bool) (lt : LogTransformMode)
    (hsrc : effectiveSrcWhite srcWhite quad draftScale ≤ 65535) :
    computeDstWhiteLevel srcWhite quad draftScale asm nsm dbg lt ≤ 65535 ∧
    (∀ p b w : ℚ, 0 ≤ w → 0 ≤ clampStore p b w ∧ clampStore p b w ≤ w) := by
  constructor
  · unfold computeDstWhiteLevel
    cases asm <;> cases nsm <;> cases dbg <;> cases lt <;>
      simp only [Bool.false_eq_true, Bool.true_eq_false, if_true, if_false,
        reduceIte] <;>
      first
        | exact hsrc
        | exact zpow_min16_bound _
  · intro p b w hw
    unfold clampStore clampQ
    split
    · exact ⟨le_refl 0, hw⟩
    next h1 =>
      split
      next h2 => exact ⟨hw, le_refl w⟩
      next h2 => exact ⟨not_lt.mp h1, not_lt.mp h2⟩

theorem dst_white_level_bound_amended_witness :
    effectiveSrcWhite 16383 true 2 ≤ 65535 ∧
    (computeDstWhiteLevel 16383 true 2 true false false .ReduceBy2Bit ≤ 65535 ∧
     (∀ p b w : ℚ, 0 ≤ w → 0 ≤ clampStore p b w ∧ clampStore p b w ≤ w)) :=
  ⟨by norm_num [effectiveSrcWhite, normalizeScale],
   dst_white_level_bound_amended 16383 true 2 true false false .ReduceBy2Bit
     (by norm_num [effectiveSrcWhite, normalizeScale])⟩
/-! ### C6 theorems -/

/-- C6: color-only shading reduction.  When the global maximum of the map
is nonzero, every in-range cell of every channel is divided by the local
minimum of the four channel gains at that cell; consequently (for a cell
with positive local minimum) the post-reduction local minimum is 1 and a
cell where all four gains coincide becomes `(1,1,1,1)`.  Before the
per-cell loop, the per-plane minima of the two green channels are
equalized for the CFA patterns with green at positions 1 and 2
(RGGB `[0,1,1,2]` / BGGR `[2,1,1,0]`, both set to the plane-2 minimum) and
for green at positions 0 and 3 (GRBG `[1,0,2,1]` / GBRG `[1,2,0,1]`, both
set to the plane-3 minimum). -/
theorem color_only_shading_reduction (m : Fin 4 → ℕ → ℚ) (w h idx : ℕ) (cfa : List ℕ)
    (hmax : ¬mapMax m w h = 0) (hidx : idx < w * h) (hpos : 0 < localMin4 m idx) :
    (∀ ch, colorOnlyShadingMap m w h cfa ch idx = m ch idx / localMin4 m idx) ∧
    localMin4 (colorOnlyShadingMap m w h cfa) idx = 1 ∧
    (∀ v : ℚ, (∀ ch, m ch idx = v) → ∀ ch, colorOnlyShadingMap m w h cfa ch idx = 1) ∧
    ((cfa = [0, 1, 1, 2] ∨ cfa = [2, 1, 1, 0]) →
      (colorOnlyMinima m w h cfa).2.1 = (colorOnlyMinima m w h cfa).2.2.1) ∧
    ((cfa = [1, 0, 2, 1] ∨ cfa = [1, 2, 0, 1]) →
      (colorOnlyMinima m w h cfa).1 = (colorOnlyMinima m w h cfa).2.2.2) := by
  have happ : ∀ ch, colorOnlyShadingMap m w h cfa ch idx = m ch idx / localMin4 m idx := by
    intro ch
    simp only [colorOnlyShadingMap, if_neg hmax, if_pos hidx]
  refine ⟨happ, ?_, ?_, ?_, ?_⟩
  · have hne : localMin4 m idx ≠ 0 := ne_of_gt hpos
    have hL : 0 ≤ localMin4 m idx := le_of_lt hpos
    rw [localMin4, happ 0, happ 1, happ 2, happ 3]
    rw [min_div_div_right hL, min_div_div_right hL, min_div_div_right hL]
    rw [show min (m 0 idx) (min (m 1 idx) (min (m 2 idx) (m 3 idx))) = localMin4 m idx
      from rfl]
    exact div_self hne
  · intro v hv ch
    have hLv : localMin4 m idx = v := by
      simp [localMin4, hv 0, hv 1, hv 2, hv 3]
    rw [happ ch, hv ch, hLv]
    exact div_self (by rw [← hLv]; exact ne_of_gt hpos)
  · intro hcfa
    simp only [colorOnlyMinima, if_pos hcfa]
  · intro hcfa
    have hne : ¬(cfa = [0, 1, 1, 2] ∨ cfa = [2, 1, 1, 0]) := by
      rcases hcfa with h | h <;> simp [h]
    simp only [colorOnlyMinima, if_neg hne, if_pos hcfa]

theorem color_only_shading_reduction_witness :
    (¬mapMax (fun _ _ => (2 : ℚ)) 1 1 = 0) ∧ (0 : ℕ) < 1 * 1 ∧
    0 < localMin4 (fun _ _ => (2 : ℚ)) 0 ∧
    localMin4 (colorOnlyShadingMap (fun _ _ => (2 : ℚ)) 1 1 [0, 1, 1, 2]) 0 = 1 := by
  have hpm : planeMax (fun _ => (2 : ℚ)) 1 1 = 2 := by
    rw [planeMax, show List.range (1 * 1) = [0] from rfl]
    norm_num
  have hmm : mapMax (fun _ _ => (2 : ℚ)) 1 1 = 2 := by
    rw [mapMax, show (List.finRange 4) = [0, 1, 2, 3] from rfl]
    simp only [List.map_cons, List.map_nil, hpm]
    norm_num [List.foldl]
  have hmax : ¬mapMax (fun _ _ => (2 : ℚ)) 1 1 = 0 := by rw [hmm]; norm_num
  have hpos : 0 < localMin4 (fun _ _ => (2 : ℚ)) 0 := by norm_num [localMin4]
  exact ⟨hmax, by norm_num, hpos,
    (color_only_shading_reduction (fun _ _ => 2) 1 1 0 [0, 1, 1, 2] hmax
      (by norm_num) hpos).2.1⟩

/-! ### C2 theorems -/

theorem sixty_one_rpow_bounds :
    (14995 / 4369 : ℝ) ≤ (61 : ℝ) ^ ((3 : ℝ) / 10) ∧
    (61 : ℝ) ^ ((3 : ℝ) / 10) < 14997 / 4369 := by
  have h61 : (0 : ℝ) ≤ 61 := by norm_num
  have hx0 : (0 : ℝ) ≤ (61 : ℝ) ^ ((3 : ℝ) / 10) := Real.rpow_nonneg h61 _
  have hpow : ((61 : ℝ) ^ ((3 : ℝ) / 10)) ^ (10 : ℕ) = 226981 := by
    rw [← Real.rpow_natCast ((61 : ℝ) ^ ((3 : ℝ) / 10)) 10, ← Real.rpow_mul h61]
    rw [show (3 : ℝ) / 10 * ((10 : ℕ) : ℝ) = ((3 : ℕ) : ℝ) by push_cast; ring]
    rw [Real.rpow_natCast]
    norm_num
  constructor
  · have ha : ((14995 / 4369 : ℝ)) ^ (10 : ℕ) ≤ ((61 : ℝ) ^ ((3 : ℝ) / 10)) ^ (10 : ℕ) := by
      rw [hpow]; norm_num
    exact (pow_le_pow_iff_left₀ (by norm_num) hx0 (by norm_num)).mp ha
  · have hb : ((61 : ℝ) ^ ((3 : ℝ) / 10)) ^ (10 : ℕ) < ((14997 / 4369 : ℝ)) ^ (10 : ℕ) := by
      rw [hpow]; norm_num
    exact (pow_lt_pow_iff_left₀ hx0 (by norm_num) (by norm_num)).mp hb

/-- C2 counterexample.  First, presence is not equivalent to the log
transform being applied to the pixels: with `logTransform = KeepInput`
and no shading map the pixel loop applies the log curve yet `generateDng`
emits no LinearizationTable.  Second, an interior entry is the truncation,
not the rounding, of the inversion formula: at `dstWhiteLevel = 10`,
entry 3 is 2656 while the claim's rounded value is 2657 (the exact value
is `(61^(3/10) - 1) / 60 * 65535 = 2656.79...`). -/
theorem linearization_presence_round_cex :
    (pixelPathUsesLogCurve false .KeepInput = true ∧
     linearizationTablePresent .KeepInput false = false) ∧
    linearizationEntry 10 3 = 2656 ∧ linearizationEntrySpec 10 3 = 2657 := by
  have hconv : (2 : ℝ) ^ (((3 : ℕ) : ℝ) / ((10 : ℕ) : ℝ) * Real.logb 2 61)
      = (61 : ℝ) ^ ((3 : ℝ) / 10) := by
    rw [show ((3 : ℕ) : ℝ) / ((10 : ℕ) : ℝ) = (3 : ℝ) / 10 by push_cast; ring]
    rw [mul_comm, Real.rpow_mul (by norm_num : (0 : ℝ) ≤ 2),
      Real.rpow_logb (by norm_num) (by norm_num) (by norm_num)]
  obtain ⟨hxa, hxb⟩ := sixty_one_rpow_bounds
  refine ⟨⟨by decide, by decide⟩, ?_, ?_⟩
  · show linearizationEntry 10 3 = 2656
    rw [linearizationEntry]
    rw [if_neg (by norm_num), if_neg (by norm_num)]
    rw [hconv]
    have hv0 : (0 : ℝ) ≤ ((61 : ℝ) ^ ((3 : ℝ) / 10) - 1) / 60 := by
      have h1 : (1 : ℝ) ≤ (61 : ℝ) ^ ((3 : ℝ) / 10) := by linarith
      linarith
    have hv1 : ((61 : ℝ) ^ ((3 : ℝ) / 10) - 1) / 60 ≤ 1 := by linarith
    rw [clampR, min_eq_left hv1, max_eq_right hv0]
    have hf : ⌊((61 : ℝ) ^ ((3 : ℝ) / 10) - 1) / 60 * 65535⌋ = 2656 := by
      rw [Int.floor_eq_iff]
      constructor
      · push_cast
        linarith
      · push_cast
        linarith
    rw [hf]
    rfl
  · show linearizationEntrySpec 10 3 = 2657
    rw [linearizationEntrySpec, hconv]
    have hr : round (((61 : ℝ) ^ ((3 : ℝ) / 10) - 1) / 60 * 65535) = 2657 := by
      rw [round_eq, Int.floor_eq_iff]
      constructor
      · push_cast
        linarith
      · push_cast
        linarith
    rw [hr]
    rfl

/-- C2 (amended): the LinearizationTable is present iff
`logTransform ≠ Disabled` and not (`KeepInput` without shading map) - a
strictly stronger condition than the log curve being applied to the
pixels; when present (for any `dstWhiteLevel = L ≥ 1`) the table has
`L + 1` entries with forced endpoints `table[0] = 0` and
`table[L] = 65535`, each interior entry is the truncated (not rounded)
clamped inversion `⌊clamp((2^(i/L·log2 61) - 1)/60, 0, 1)·65535⌋`, and
the DNG then carries `BlackLevel = [0,0,0,0]`, `WhiteLevel = 65534`. -/
theorem linearization_table_amended (L : ℕ) (hL : 1 ≤ L) :
    (∀ lt asm, linearizationTablePresent lt asm = true ↔
      (lt ≠ .Disabled ∧ ¬(lt = .KeepInput ∧ asm = false))) ∧
    (∀ lt asm, linearizationTablePresent lt asm = true →
      pixelPathUsesLogCurve false lt = true) ∧
    (linearizationTable L).length = L + 1 ∧
    (linearizationTable L).getD 0 0 = 0 ∧
    (linearizationTable L).getD L 0 = 65535 ∧
    (∀ i, 0 < i → i < L →
      (linearizationTable L).getD i 0 =
        (⌊clampR (((2 : ℝ) ^ (((i : ℝ) / (L : ℝ)) * Real.logb 2 61) - 1) / 60) 0 1
            * 65535⌋).toNat) ∧
    (∀ dstBlack dstWhite, dngLevelTags true dstBlack dstWhite = ([0, 0, 0, 0], 65534)) := by
  have hget : ∀ i, i < L + 1 → (linearizationTable L).getD i 0 = linearizationEntry L i := by
    intro i hi
    rw [linearizationTable, List.getD_eq_getElem?_getD]
    rw [List.getElem?_map, List.getElem?_range hi]
    rfl
  refine ⟨?_, ?_, by simp [linearizationTable], ?_, ?_, ?_, fun _ _ => rfl⟩
  · intro lt asm
    cases asm <;> cases lt <;> simp [linearizationTablePresent]
  · intro lt asm h
    have h' := of_decide_eq_true h
    simp only [pixelPathUsesLogCurve, Bool.not_false, Bool.true_and, decide_eq_true_eq]
    exact h'.1
  · rw [hget 0 (by omega), linearizationEntry]
    rw [if_pos rfl]
  · rw [hget L (by omega), linearizationEntry]
    rw [if_neg (by omega), if_pos rfl]
  · intro i h0 hiL
    rw [hget i (by omega), linearizationEntry]
    rw [if_neg (by omega), if_neg (by omega)]

theorem linearization_table_amended_witness :
    1 ≤ 1 ∧
    ((∀ lt asm, linearizationTablePresent lt asm = true ↔
      (lt ≠ .Disabled ∧ ¬(lt = .KeepInput ∧ asm = false))) ∧
    (∀ lt asm, linearizationTablePresent lt asm = true →
      pixelPathUsesLogCurve false lt = true) ∧
    (linearizationTable 1).length = 1 + 1 ∧
    (linearizationTable 1).getD 0 0 = 0 ∧
    (linearizationTable 1).getD 1 0 = 65535 ∧
    (∀ i, 0 < i → i < 1 →
      (linearizationTable 1).getD i 0 =
        (⌊clampR (((2 : ℝ) ^ (((i : ℝ) / ((1 : ℕ) : ℝ)) * Real.logb 2 61) - 1) / 60) 0 1
            * 65535⌋).toNat) ∧
    (∀ dstBlack dstWhite, dngLevelTags true dstBlack dstWhite = ([0, 0, 0, 0], 65534))) :=
  ⟨le_refl 1, linearization_table_amended 1 (le_refl 1)⟩

end Motioncam
